import Mathlib

/-!
# Verification of the trading-bot surveillance engine

A shallow embedding, in Lean 4, of the data model and operations of the
`telliott22/trading-bot` repository: the smart-money anomaly-detection path
(`trade-store.ts`, `baseline.ts`, `market-stats.ts`, `anomaly-engine.ts`,
`detector.ts`, the `AlertManager` as listed in `smart-money/README.md`) and the
leader-follower opportunity state (`state.ts`, `monitor.ts`).

Modelling conventions, applied uniformly:

* JavaScript `number` is embedded as `ℚ` (exact arithmetic; IEEE-754 rounding is
  not modelled).  Timestamps (Unix milliseconds) are also `ℚ`.
* Calls to `Date.now()` are embedded as an explicit `now` parameter threaded to
  the functions that read the clock; likewise the Trade Store's
  `getCurrentTime()` (simulated or wall time) becomes a `now` argument.
* JavaScript `Map` objects are embedded as association lists that preserve
  insertion order (`alUpdate` updates in place, appends when the key is new),
  matching `Map.set` / `Map.get`.
* `Math.sqrt` has no exact rational counterpart, so a standard deviation
  `σ = √v` is carried as its square `v` (`…Sq` fields): the code's guard
  `σ === 0` is embedded as `v = 0` (equivalent, since `√v = 0 ↔ v = 0` for
  `v ≥ 0`), and a z-score `n / σ` is carried as the pair `(n, v)` (`ZScoreRepr`,
  denoting `n / √v`); the code's comparison `z ≥ c` for a threshold `c ≥ 0` is
  embedded as `0 ≤ n ∧ c² · v ≤ n²`, which is equivalent over ℝ.
* `null`/`undefined` results are embedded as `Option`.
-/

namespace TradingBot

/-! ## Basic enumerations (`types.ts`) -/

/-- Trade side, `'BUY' | 'SELL'` in `types.ts`. -/
inductive Side
  | BUY
  | SELL
deriving DecidableEq, Repr

/-- `AnomalySeverity` in `types.ts`. -/
inductive AnomalySeverity
  | LOW
  | MEDIUM
  | HIGH
  | CRITICAL
deriving DecidableEq, Repr

/-- `AnomalyType` in `types.ts`. -/
inductive AnomalyType
  | LARGE_TRADE
  | VOLUME_SPIKE
  | RAPID_PRICE_MOVE
  | UNUSUAL_LOW_PRICE_BUY
deriving DecidableEq, Repr

/-- `impliedDirection` values in `types.ts`. -/
inductive ImpliedDirection
  | YES
  | NO
  | UNKNOWN
deriving DecidableEq, Repr

/-- `SmartMoneyTrade` in `types.ts` (the optional maker/taker addresses,
unused by the embedded functions, are omitted). -/
structure SmartMoneyTrade where
  marketId : String
  conditionId : String
  tokenId : String
  price : ℚ
  size : ℚ
  sizeUsd : ℚ
  side : Side
  timestamp : ℚ
deriving DecidableEq, Repr

/-- The slice of `MarketInfo` (`types.ts`) read by the anomaly engine. -/
structure MarketInfo where
  id : String
  question : String
deriving DecidableEq, Repr

/-! ## Percentile tracker (`market-stats.ts`) -/

/-- `PercentileConfig` in `market-stats.ts`. -/
structure PercentileConfig where
  lowPriceThreshold : ℚ
  mediumPercentile : ℚ
  highPercentile : ℚ
  criticalPercentile : ℚ
  maxSamples : ℕ
  minSamples : ℕ
deriving DecidableEq, Repr

/-- `DEFAULT_PERCENTILE_CONFIG` in `market-stats.ts`. -/
def DEFAULT_PERCENTILE_CONFIG : PercentileConfig where
  lowPriceThreshold := 1/4
  mediumPercentile := 9/10
  highPercentile := 95/100
  criticalPercentile := 99/100
  maxSamples := 10000
  minSamples := 50

/-- `TradeRecord` in `market-stats.ts`. -/
structure TradeRecord where
  sizeUsd : ℚ
  price : ℚ
  timestamp : ℚ
  side : Side
deriving DecidableEq, Repr

/-- Severity scale of `PercentileResult` (`'NONE' | 'MEDIUM' | 'HIGH' |
'CRITICAL'` in `market-stats.ts`). -/
inductive PercSeverity
  | NONE
  | MEDIUM
  | HIGH
  | CRITICAL
deriving DecidableEq, Repr

/-- `PercentileResult` in `market-stats.ts`. -/
structure PercentileResult where
  percentile : ℚ
  isUnusual : Bool
  severity : PercSeverity
  rank : ℕ
  totalTrades : ℕ
  medianSize : ℚ
  p90 : ℚ
  p95 : ℚ
  p99 : ℚ
deriving DecidableEq, Repr

/-- The binary-search loop shared by `countSmaller` and `insertSorted` in
`market-stats.ts`: narrow `[left, right)` to the first index whose element is
not `< value`.  `(left + right) >>> 1` is `(left + right) / 2`. -/
def lowerBoundAux (arr : List ℚ) (value : ℚ) (left right : ℕ) : ℕ :=
  if h : left < right then
    let mid := (left + right) / 2
    if arr.getD mid 0 < value then lowerBoundAux arr value (mid + 1) right
    else lowerBoundAux arr value left mid
  else left
termination_by right - left
decreasing_by
  · omega
  · omega

/-- `MarketStats.countSmaller` in `market-stats.ts`: binary search over the
whole array. -/
def countSmaller (arr : List ℚ) (value : ℚ) : ℕ :=
  lowerBoundAux arr value 0 arr.length

/-- `MarketStats.insertSorted` in `market-stats.ts`: binary-search the
insertion point (the same loop as `countSmaller`), then `splice(left, 0,
value)`. -/
def insertSorted (arr : List ℚ) (value : ℚ) : List ℚ :=
  arr.insertIdx (lowerBoundAux arr value 0 arr.length) value

/-- `MarketStats.removeSorted` in `market-stats.ts`: `indexOf` then
`splice(idx, 1)`, i.e. remove the first occurrence and do nothing when the
value is absent — exactly `List.erase`. -/
def removeSorted (arr : List ℚ) (value : ℚ) : List ℚ :=
  arr.erase value

/-- Whether a trade record is tracked in the sorted multiset: `side === 'BUY'
&& price < lowPriceThreshold` (`market-stats.ts`). -/
def isLowPriceBuy (cfg : PercentileConfig) (t : TradeRecord) : Bool :=
  t.side = Side.BUY && t.price < cfg.lowPriceThreshold

/-- Per-market state of `MarketStats` (`market-stats.ts`): the FIFO ring of
recent trades and the sorted array of low-price-buy sizes. -/
structure MarketStats where
  trades : List TradeRecord
  lowPriceBuys : List ℚ
deriving DecidableEq, Repr

/-- A fresh `MarketStats` (constructor in `market-stats.ts`). -/
def MarketStats.empty : MarketStats where
  trades := []
  lowPriceBuys := []

/-- `MarketStats.addTrade` in `market-stats.ts`: push the record; if it is a
low-price BUY, binary-insert its size; if the buffer exceeds `maxSamples`,
shift the oldest record and, if that record was a tracked low-price BUY,
remove its size. -/
def MarketStats.addTrade (cfg : PercentileConfig) (st : MarketStats)
    (t : TradeRecord) : MarketStats :=
  let trades := st.trades ++ [t]
  let lowPriceBuys :=
    if isLowPriceBuy cfg t then insertSorted st.lowPriceBuys t.sizeUsd
    else st.lowPriceBuys
  if cfg.maxSamples < trades.length then
    match trades with
    | [] => { trades := [], lowPriceBuys := lowPriceBuys }
    | removed :: rest =>
        { trades := rest
          lowPriceBuys :=
            if isLowPriceBuy cfg removed then
              removeSorted lowPriceBuys removed.sizeUsd
            else lowPriceBuys }
  else
    { trades := trades, lowPriceBuys := lowPriceBuys }

/-- `MarketStats.getPercentile` in `market-stats.ts`. -/
def MarketStats.getPercentile (cfg : PercentileConfig) (st : MarketStats)
    (sizeUsd : ℚ) : PercentileResult :=
  let n := st.lowPriceBuys.length
  if n < cfg.minSamples then
    { percentile := 0, isUnusual := false, severity := PercSeverity.NONE
      rank := 0, totalTrades := n, medianSize := 0, p90 := 0, p95 := 0, p99 := 0 }
  else
    let smallerCount := countSmaller st.lowPriceBuys sizeUsd
    let percentile : ℚ := (smallerCount : ℚ) / (n : ℚ)
    let rank := n - smallerCount
    let p90 := st.lowPriceBuys.getD (⌊(n : ℚ) * (9/10)⌋).toNat 0
    let p95 := st.lowPriceBuys.getD (⌊(n : ℚ) * (95/100)⌋).toNat 0
    let p99 := st.lowPriceBuys.getD (⌊(n : ℚ) * (99/100)⌋).toNat 0
    let median := st.lowPriceBuys.getD (⌊(n : ℚ) * (1/2)⌋).toNat 0
    let severity :=
      if cfg.criticalPercentile ≤ percentile then PercSeverity.CRITICAL
      else if cfg.highPercentile ≤ percentile then PercSeverity.HIGH
      else if cfg.mediumPercentile ≤ percentile then PercSeverity.MEDIUM
      else PercSeverity.NONE
    { percentile := percentile
      isUnusual := severity ≠ PercSeverity.NONE
      severity := severity
      rank := rank
      totalTrades := n
      medianSize := median
      p90 := p90, p95 := p95, p99 := p99 }

/-- `MarketStats.shouldAlert` in `market-stats.ts`: only low-price BUYs, and
only when the percentile result is unusual. -/
def MarketStats.shouldAlert (cfg : PercentileConfig) (st : MarketStats)
    (sizeUsd price : ℚ) (side : Side) : Option PercentileResult :=
  if side ≠ Side.BUY ∨ cfg.lowPriceThreshold ≤ price then none
  else
    let result := st.getPercentile cfg sizeUsd
    if result.isUnusual then some result else none

/-! ### Association lists standing in for JavaScript `Map` -/

/-- `Map.set`-style update on an insertion-ordered association list: replace
in place when the key is present, append otherwise. -/
def alUpdate {β : Type} (k : String) (f : Option β → β) :
    List (String × β) → List (String × β)
  | [] => [(k, f none)]
  | (k', v) :: rest =>
      if k' = k then (k', f (some v)) :: rest else (k', v) :: alUpdate k f rest

/-- `MarketStatsManager` (`market-stats.ts`): one `MarketStats` per market. -/
structure MarketStatsManager where
  markets : List (String × MarketStats)
deriving DecidableEq, Repr

/-- A fresh manager. -/
def MarketStatsManager.empty : MarketStatsManager where
  markets := []

/-- `MarketStatsManager.getMarket`: get-or-create (read-only view; creation on
write is folded into `alUpdate`). -/
def MarketStatsManager.getMarket (m : MarketStatsManager) (marketId : String) :
    MarketStats :=
  (m.markets.lookup marketId).getD MarketStats.empty

/-- `MarketStatsManager.addTrade` in `market-stats.ts`. -/
def MarketStatsManager.addTrade (cfg : PercentileConfig)
    (m : MarketStatsManager) (marketId : String) (sizeUsd price : ℚ)
    (side : Side) (timestamp : ℚ) : MarketStatsManager :=
  { markets :=
      alUpdate marketId
        (fun st? => (st?.getD MarketStats.empty).addTrade cfg
          { sizeUsd := sizeUsd, price := price, timestamp := timestamp, side := side })
        m.markets }

/-- `MarketStatsManager.checkTrade` in `market-stats.ts`. -/
def MarketStatsManager.checkTrade (cfg : PercentileConfig)
    (m : MarketStatsManager) (marketId : String) (sizeUsd price : ℚ)
    (side : Side) : Option PercentileResult :=
  (m.getMarket marketId).shouldAlert cfg sizeUsd price side

/-! ## Baseline Calculator (`baseline.ts`)

Standard deviations are carried squared (see the header): field `xSq` holds the
square of the TypeScript field `x`, and every test `x === 0` becomes `xSq = 0`.
-/

/-- `DetectionConfig` in `types.ts`. -/
structure DetectionConfig where
  largeTradeMin : ℚ
  largeTradeHigh : ℚ
  largeTradeCritical : ℚ
  volumeSpikeWindowMs : ℚ
  volumeSpikeLow : ℚ
  volumeSpikeHigh : ℚ
  volumeSpikeCritical : ℚ
  priceWindowMs : ℚ
  priceChangeLow : ℚ
  priceChangeHigh : ℚ
  priceChangeCritical : ℚ
  zScoreLow : ℚ
  zScoreHigh : ℚ
  zScoreCritical : ℚ
  baselineWindowMs : ℚ
  minSamplesForBaseline : ℕ
  alertCooldownMs : ℚ
  maxAlertsPerHour : ℕ
  minSeverity : AnomalySeverity
deriving DecidableEq, Repr

/-- `DEFAULT_CONFIG` in `types.ts`. -/
def DEFAULT_CONFIG : DetectionConfig where
  largeTradeMin := 5000
  largeTradeHigh := 10000
  largeTradeCritical := 25000
  volumeSpikeWindowMs := 5 * 60 * 1000
  volumeSpikeLow := 5
  volumeSpikeHigh := 10
  volumeSpikeCritical := 20
  priceWindowMs := 5 * 60 * 1000
  priceChangeLow := 5/100
  priceChangeHigh := 10/100
  priceChangeCritical := 20/100
  zScoreLow := 2
  zScoreHigh := 3
  zScoreCritical := 4
  baselineWindowMs := 24 * 60 * 60 * 1000
  minSamplesForBaseline := 100
  alertCooldownMs := 5 * 60 * 1000
  maxAlertsPerHour := 20
  minSeverity := AnomalySeverity.MEDIUM

/-- `MarketBaseline` in `types.ts`, with standard deviations squared. -/
structure MarketBaseline where
  marketId : String
  avgVolumePerHour : ℚ
  stdDevVolumePerHourSq : ℚ
  avgTradeSize : ℚ
  stdDevTradeSizeSq : ℚ
  medianTradeSize : ℚ
  avgPriceChangePerHour : ℚ
  stdDevPriceChangePerHourSq : ℚ
  avgTradesPerHour : ℚ
  updatedAt : ℚ
  sampleCount : ℕ
  firstTradeAt : ℚ
  lastTradeAt : ℚ
deriving DecidableEq, Repr

/-- `BaselineCalculator.mean` in `baseline.ts` (0 on an empty list). -/
def listMean (values : List ℚ) : ℚ :=
  if values.length = 0 then 0 else values.sum / (values.length : ℚ)

/-- The square of `BaselineCalculator.stdDev` in `baseline.ts` (population
variance; 0 when fewer than two values). `stdDev = √(stdDevSq)`. -/
def stdDevSq (values : List ℚ) (m : ℚ) : ℚ :=
  if values.length < 2 then 0
  else listMean (values.map (fun v => (v - m) ^ 2))

/-- `BaselineCalculator.median` in `baseline.ts`: sort ascending, middle
element (or mean of the two middle elements). -/
def listMedian (values : List ℚ) : ℚ :=
  if values.length = 0 then 0
  else
    let sorted := values.insertionSort (· ≤ ·)
    let mid := sorted.length / 2
    if sorted.length % 2 ≠ 0 then sorted.getD mid 0
    else (sorted.getD (mid - 1) 0 + sorted.getD mid 0) / 2

/-- Insertion-ordered accumulation into integer-keyed buckets (JavaScript
`Map<number, _>`). -/
def zUpdate {β : Type} (k : ℤ) (f : Option β → β) :
    List (ℤ × β) → List (ℤ × β)
  | [] => [(k, f none)]
  | (k', v) :: rest =>
      if k' = k then (k', f (some v)) :: rest else (k', v) :: zUpdate k f rest

/-- `BaselineCalculator.getHourlyVolumes` in `baseline.ts`: bucket USD sizes
by `Math.floor(timestamp / 1h)` and return the bucket totals in first-seen
order. -/
def getHourlyVolumes (trades : List SmartMoneyTrade) : List ℚ :=
  (trades.foldl
    (fun buckets t =>
      zUpdate ⌊t.timestamp / (60 * 60 * 1000)⌋
        (fun cur? => cur?.getD 0 + t.sizeUsd) buckets)
    []).map Prod.snd

/-- `BaselineCalculator.calculateHourlyPriceChanges` in `baseline.ts`: per
hour bucket record the first and last price, return `last - first` per bucket
(empty when fewer than two trades). -/
def calculateHourlyPriceChanges (trades : List SmartMoneyTrade) : List ℚ :=
  if trades.length < 2 then []
  else
    (trades.foldl
      (fun buckets t =>
        zUpdate ⌊t.timestamp / (60 * 60 * 1000)⌋
          (fun cur? =>
            match cur? with
            | none => (t.price, t.price)
            | some (first, _) => (first, t.price))
          buckets)
      []).map (fun kv => kv.2.2 - kv.2.1)

/-- `BaselineCalculator` state: the per-market baselines map. -/
structure BaselineCalculator where
  baselines : List (String × MarketBaseline)
deriving DecidableEq, Repr

/-- A fresh calculator. -/
def BaselineCalculator.empty : BaselineCalculator where
  baselines := []

/-- `BaselineCalculator.updateBaseline` in `baseline.ts` (with `Date.now()`
passed as `now`): filter the given trades to the retention window and replace
the market's baseline with statistics over that window. -/
def BaselineCalculator.updateBaseline (cfg : DetectionConfig)
    (bc : BaselineCalculator) (now : ℚ) (marketId : String)
    (trades : List SmartMoneyTrade) : BaselineCalculator :=
  if trades.length = 0 then bc
  else
    let cutoff := now - cfg.baselineWindowMs
    let windowTrades := trades.filter (fun t => cutoff ≤ t.timestamp)
    if windowTrades.length = 0 then bc
    else
      let tradeSizes := windowTrades.map (fun t => t.sizeUsd)
      let avgTradeSize := listMean tradeSizes
      let stdDevTradeSizeSq := stdDevSq tradeSizes avgTradeSize
      let medianTradeSize := listMedian tradeSizes
      let windowHours := cfg.baselineWindowMs / (60 * 60 * 1000)
      let totalVolume := tradeSizes.sum
      let avgVolumePerHour := totalVolume / windowHours
      let hourlyVolumes := getHourlyVolumes windowTrades
      let stdDevVolumePerHourSq := stdDevSq hourlyVolumes avgVolumePerHour
      let priceChanges := calculateHourlyPriceChanges windowTrades
      let absChanges := priceChanges.map (fun c => |c|)
      let avgPriceChangePerHour := listMean absChanges
      let stdDevPriceChangePerHourSq := stdDevSq absChanges avgPriceChangePerHour
      let avgTradesPerHour := (windowTrades.length : ℚ) / windowHours
      let baseline : MarketBaseline :=
        { marketId := marketId
          avgVolumePerHour := avgVolumePerHour
          stdDevVolumePerHourSq := stdDevVolumePerHourSq
          avgTradeSize := avgTradeSize
          stdDevTradeSizeSq := stdDevTradeSizeSq
          medianTradeSize := medianTradeSize
          avgPriceChangePerHour := avgPriceChangePerHour
          stdDevPriceChangePerHourSq := stdDevPriceChangePerHourSq
          avgTradesPerHour := avgTradesPerHour
          updatedAt := now
          sampleCount := windowTrades.length
          firstTradeAt := ((windowTrades.head?).map (fun t => t.timestamp)).getD 0
          lastTradeAt := ((windowTrades.getLast?).map (fun t => t.timestamp)).getD 0 }
      { baselines := alUpdate marketId (fun _ => baseline) bc.baselines }

/-- `BaselineCalculator.getBaseline` in `baseline.ts`. -/
def BaselineCalculator.getBaseline (bc : BaselineCalculator)
    (marketId : String) : Option MarketBaseline :=
  bc.baselines.lookup marketId

/-- `BaselineCalculator.isBaselineReady` in `baseline.ts`: a baseline exists
and its `sampleCount` reaches `minSamplesForBaseline`. -/
def BaselineCalculator.isBaselineReady (cfg : DetectionConfig)
    (bc : BaselineCalculator) (marketId : String) : Bool :=
  match bc.getBaseline marketId with
  | none => false
  | some b => cfg.minSamplesForBaseline ≤ b.sampleCount

/-- A z-score `num / √denomSq` carried symbolically (see the header). -/
structure ZScoreRepr where
  num : ℚ
  denomSq : ℚ
deriving DecidableEq, Repr

/-- The comparison `num / √denomSq ≥ c`, for a threshold `c ≥ 0` and
`denomSq > 0`, decided rationally. -/
def ZScoreRepr.geB (z : ZScoreRepr) (c : ℚ) : Bool :=
  0 ≤ z.num && c ^ 2 * z.denomSq ≤ z.num ^ 2

/-- `BaselineCalculator.getTradeSizeZScore` in `baseline.ts`:
`null` when no baseline is stored or `stdDevTradeSize === 0`; otherwise
`(tradeSize − avg) / stdDev`. -/
def BaselineCalculator.getTradeSizeZScore (bc : BaselineCalculator)
    (marketId : String) (tradeSize : ℚ) : Option ZScoreRepr :=
  match bc.getBaseline marketId with
  | none => none
  | some b =>
      if b.stdDevTradeSizeSq = 0 then none
      else some { num := tradeSize - b.avgTradeSize, denomSq := b.stdDevTradeSizeSq }

/-- `BaselineCalculator.getVolumeZScore` in `baseline.ts`: `null` when no
baseline or `stdDevVolumePerHour === 0`; otherwise
`(observed − avg·h) / (stdDev·h)` where `h = windowMs / 1h`. -/
def BaselineCalculator.getVolumeZScore (bc : BaselineCalculator)
    (marketId : String) (observedVolume windowMs : ℚ) : Option ZScoreRepr :=
  match bc.getBaseline marketId with
  | none => none
  | some b =>
      if b.stdDevVolumePerHourSq = 0 then none
      else
        let windowHours := windowMs / (60 * 60 * 1000)
        some { num := observedVolume - b.avgVolumePerHour * windowHours
               denomSq := b.stdDevVolumePerHourSq * windowHours ^ 2 }

/-- `BaselineCalculator.getPriceChangeZScore` in `baseline.ts`: `null` when no
baseline or `stdDevPriceChangePerHour === 0`; otherwise
`(|Δ| − avgAbs) / stdDevAbs`. -/
def BaselineCalculator.getPriceChangeZScore (bc : BaselineCalculator)
    (marketId : String) (priceChange : ℚ) : Option ZScoreRepr :=
  match bc.getBaseline marketId with
  | none => none
  | some b =>
      if b.stdDevPriceChangePerHourSq = 0 then none
      else some { num := |priceChange| - b.avgPriceChangePerHour
                  denomSq := b.stdDevPriceChangePerHourSq }

/-- `BaselineCalculator.getExpectedVolume` in `baseline.ts`. -/
def BaselineCalculator.getExpectedVolume (bc : BaselineCalculator)
    (marketId : String) (windowMs : ℚ) : Option ℚ :=
  match bc.getBaseline marketId with
  | none => none
  | some b => some (b.avgVolumePerHour * (windowMs / (60 * 60 * 1000)))

/-- `BaselineCalculator.getVolumeMultiple` in `baseline.ts`: `null` when the
expected volume is missing or zero (the JavaScript guard `!expected ||
expected === 0` is falsy exactly on 0 for a number). -/
def BaselineCalculator.getVolumeMultiple (bc : BaselineCalculator)
    (marketId : String) (observedVolume windowMs : ℚ) : Option ℚ :=
  match bc.getExpectedVolume marketId windowMs with
  | none => none
  | some expected =>
      if expected = 0 then none else some (observedVolume / expected)

/-! ## Trade Store (`trade-store.ts`) -/

/-- A point of `priceHistory` in `trade-store.ts`. -/
structure PricePoint where
  price : ℚ
  timestamp : ℚ
deriving DecidableEq, Repr

/-- `MarketTradeWindow` in `trade-store.ts`. -/
structure MarketTradeWindow where
  trades : List SmartMoneyTrade
  priceHistory : List PricePoint
deriving DecidableEq, Repr

/-- `TradeStore` state (`trade-store.ts`); `getCurrentTime()` becomes the
explicit `now` argument of each operation. -/
structure TradeStore where
  windows : List (String × MarketTradeWindow)
  windowSizeMs : ℚ
deriving DecidableEq, Repr

/-- An empty store with the given window size (constructor default
`24 * 60 * 60 * 1000`). -/
def TradeStore.mk0 (windowSizeMs : ℚ) : TradeStore where
  windows := []
  windowSizeMs := windowSizeMs

/-- `TradeStore.cleanupMarket` in `trade-store.ts`: drop trades and price
points older than `windowSize` relative to the current time. -/
def TradeStore.cleanupMarket (store : TradeStore) (now : ℚ)
    (marketId : String) : TradeStore :=
  match store.windows.lookup marketId with
  | none => store
  | some _ =>
      let cutoff := now - store.windowSizeMs
      { store with
          windows :=
            alUpdate marketId
              (fun w? =>
                let w := w?.getD { trades := [], priceHistory := [] }
                { trades := w.trades.filter (fun t => cutoff ≤ t.timestamp)
                  priceHistory :=
                    w.priceHistory.filter (fun p => cutoff ≤ p.timestamp) })
              store.windows }

/-- `TradeStore.addTrade` in `trade-store.ts`: append the trade and its price
point (creating the window on first use); when the trade count is a multiple
of 100, run `cleanupMarket`. -/
def TradeStore.addTrade (store : TradeStore) (now : ℚ)
    (trade : SmartMoneyTrade) : TradeStore :=
  let store' : TradeStore :=
    { store with
        windows :=
          alUpdate trade.marketId
            (fun w? =>
              let w := w?.getD { trades := [], priceHistory := [] }
              { trades := w.trades ++ [trade]
                priceHistory :=
                  w.priceHistory ++
                    [{ price := trade.price, timestamp := trade.timestamp }] })
            store.windows }
  let len :=
    ((store'.windows.lookup trade.marketId).getD
      { trades := [], priceHistory := [] }).trades.length
  if len % 100 = 0 then store'.cleanupMarket now trade.marketId else store'

/-- The trades currently stored for a market. -/
def TradeStore.tradesFor (store : TradeStore) (marketId : String) :
    List SmartMoneyTrade :=
  ((store.windows.lookup marketId).getD
    { trades := [], priceHistory := [] }).trades

/-- `TradeStore.getRecentTrades` in `trade-store.ts`. -/
def TradeStore.getRecentTrades (store : TradeStore) (now : ℚ)
    (marketId : String) (durationMs : ℚ) : List SmartMoneyTrade :=
  match store.windows.lookup marketId with
  | none => []
  | some w => w.trades.filter (fun t => now - durationMs ≤ t.timestamp)

/-- `TradeStore.getVolumeInWindow` in `trade-store.ts`. -/
def TradeStore.getVolumeInWindow (store : TradeStore) (now : ℚ)
    (marketId : String) (durationMs : ℚ) : ℚ :=
  ((store.getRecentTrades now marketId durationMs).map
    (fun t => t.sizeUsd)).sum

/-- The result record of `getPriceChangeInWindow` (`trade-store.ts`). -/
structure PriceChange where
  start : ℚ
  stop : ℚ
  change : ℚ
  changePercent : ℚ
deriving DecidableEq, Repr

/-- `TradeStore.getPriceChangeInWindow` in `trade-store.ts`: `null` without a
window, with an empty price history, or with fewer than two in-window
points. -/
def TradeStore.getPriceChangeInWindow (store : TradeStore) (now : ℚ)
    (marketId : String) (durationMs : ℚ) : Option PriceChange :=
  match store.windows.lookup marketId with
  | none => none
  | some w =>
      if w.priceHistory.length = 0 then none
      else
        let cutoff := now - durationMs
        let recentPrices := w.priceHistory.filter (fun p => cutoff ≤ p.timestamp)
        if recentPrices.length < 2 then none
        else
          let start := ((recentPrices.head?).map (fun p => p.price)).getD 0
          let stop := ((recentPrices.getLast?).map (fun p => p.price)).getD 0
          let change := stop - start
          let changePercent := if 0 < start then change / start else 0
          some { start := start, stop := stop, change := change
                 changePercent := changePercent }

/-- `TradeStore.getLatestPrice` in `trade-store.ts`. -/
def TradeStore.getLatestPrice (store : TradeStore) (marketId : String) :
    Option ℚ :=
  match store.windows.lookup marketId with
  | none => none
  | some w =>
      if w.priceHistory.length = 0 then none
      else (w.priceHistory.getLast?).map (fun p => p.price)

/-! ## Anomaly Engine (`anomaly-engine.ts`) -/

/-- `AnomalyDetails` in `types.ts` (optional fields as `Option`).  Where the
code writes `zScore || undefined`, a JavaScript `0` becomes `undefined`; with
the symbolic representation that happens exactly when the numerator is 0. -/
structure AnomalyDetails where
  tradeSize : Option ℚ := none
  tradeSizeZScore : Option ZScoreRepr := none
  volumeMultiple : Option ℚ := none
  windowVolume : Option ℚ := none
  expectedVolume : Option ℚ := none
  priceChange : Option ℚ := none
  priceDirectionUp : Option Bool := none
  priceStart : Option ℚ := none
  priceEnd : Option ℚ := none
  percentile : Option ℚ := none
  rank : Option ℕ := none
  totalTrades : Option ℕ := none
  medianSize : Option ℚ := none
  windowMinutes : Option ℚ := none
  zScore : Option ZScoreRepr := none
deriving DecidableEq, Repr

/-- `Anomaly` in `types.ts`. -/
structure Anomaly where
  type : AnomalyType
  marketId : String
  marketQuestion : String
  severity : AnomalySeverity
  timestamp : ℚ
  details : AnomalyDetails
  currentPrice : ℚ
  impliedDirection : ImpliedDirection
  triggerTrade : Option SmartMoneyTrade := none
deriving DecidableEq, Repr

/-- `zScore || undefined` on the symbolic z-score: drop it when the numerator
is 0 (the JavaScript value would be the falsy `0`). -/
def zOrUndefined (z : Option ZScoreRepr) : Option ZScoreRepr :=
  match z with
  | none => none
  | some z => if z.num = 0 then none else some z

/-- `AnomalyEngine.detectLargeTrade` in `anomaly-engine.ts`. -/
def detectLargeTrade (cfg : DetectionConfig) (bc : BaselineCalculator)
    (trade : SmartMoneyTrade) (market : MarketInfo) : Option Anomaly :=
  let sizeUsd := trade.sizeUsd
  if sizeUsd < cfg.largeTradeMin then none
  else
    let zScore := bc.getTradeSizeZScore trade.marketId sizeUsd
    let hasStatisticalSignificance :=
      match zScore with
      | none => false
      | some z => z.geB cfg.zScoreLow
    let severity :=
      if cfg.largeTradeCritical ≤ sizeUsd then AnomalySeverity.CRITICAL
      else if cfg.largeTradeHigh ≤ sizeUsd then AnomalySeverity.HIGH
      else if hasStatisticalSignificance &&
          (match zScore with
           | none => false
           | some z => z.geB cfg.zScoreHigh) then AnomalySeverity.HIGH
      else AnomalySeverity.MEDIUM
    let impliedDirection :=
      if trade.side = Side.BUY then ImpliedDirection.YES else ImpliedDirection.NO
    some
      { type := AnomalyType.LARGE_TRADE
        marketId := trade.marketId
        marketQuestion := market.question
        severity := severity
        timestamp := trade.timestamp
        details :=
          { tradeSize := some sizeUsd
            tradeSizeZScore := zOrUndefined zScore
            zScore := zOrUndefined zScore }
        currentPrice := trade.price
        impliedDirection := impliedDirection
        triggerTrade := some trade }

/-- `AnomalyEngine.inferDirectionFromTrades` in `anomaly-engine.ts`. -/
def inferDirectionFromTrades (trades : List SmartMoneyTrade) :
    ImpliedDirection :=
  if trades.length = 0 then ImpliedDirection.UNKNOWN
  else
    let buyVolume : ℚ :=
      ((trades.filter (fun t => t.side = Side.BUY)).map (fun t => t.sizeUsd)).sum
    let sellVolume : ℚ :=
      ((trades.filter (fun t => t.side = Side.SELL)).map (fun t => t.sizeUsd)).sum
    if sellVolume * (3/2) < buyVolume then ImpliedDirection.YES
    else if buyVolume * (3/2) < sellVolume then ImpliedDirection.NO
    else ImpliedDirection.UNKNOWN

/-- `AnomalyEngine.detectVolumeSpike` in `anomaly-engine.ts` (`Date.now()`
passed as `now`). -/
def detectVolumeSpike (cfg : DetectionConfig) (bc : BaselineCalculator)
    (now : ℚ) (marketId : String) (market : MarketInfo) (tradeStore : TradeStore) :
    Option Anomaly :=
  if ¬ bc.isBaselineReady cfg marketId then none
  else
    let windowMs := cfg.volumeSpikeWindowMs
    let recentVolume := tradeStore.getVolumeInWindow now marketId windowMs
    match bc.getVolumeMultiple marketId recentVolume windowMs with
    | none => none
    | some volumeMultiple =>
        if volumeMultiple < cfg.volumeSpikeLow then none
        else
          let zScore := bc.getVolumeZScore marketId recentVolume windowMs
          let severity :=
            if cfg.volumeSpikeCritical ≤ volumeMultiple then AnomalySeverity.CRITICAL
            else if cfg.volumeSpikeHigh ≤ volumeMultiple then AnomalySeverity.HIGH
            else if
                (match zScore with
                 | none => false
                 | some z => z.geB cfg.zScoreHigh) then AnomalySeverity.HIGH
            else AnomalySeverity.MEDIUM
          let recentTrades := tradeStore.getRecentTrades now marketId windowMs
          let impliedDirection := inferDirectionFromTrades recentTrades
          let latestPrice := tradeStore.getLatestPrice marketId
          let expectedVolume := bc.getExpectedVolume marketId windowMs
          some
            { type := AnomalyType.VOLUME_SPIKE
              marketId := marketId
              marketQuestion := market.question
              severity := severity
              timestamp := now
              details :=
                { volumeMultiple := some volumeMultiple
                  windowVolume := some recentVolume
                  expectedVolume := expectedVolume
                  windowMinutes := some (windowMs / 60000)
                  zScore := zOrUndefined zScore }
              currentPrice := latestPrice.getD 0
              impliedDirection := impliedDirection }

/-- `AnomalyEngine.detectRapidPriceMove` in `anomaly-engine.ts` (`Date.now()`
passed as `now`). -/
def detectRapidPriceMove (cfg : DetectionConfig) (bc : BaselineCalculator)
    (now : ℚ) (marketId : String) (market : MarketInfo) (tradeStore : TradeStore) :
    Option Anomaly :=
  let windowMs := cfg.priceWindowMs
  match tradeStore.getPriceChangeInWindow now marketId windowMs with
  | none => none
  | some priceChange =>
      let absChange := |priceChange.changePercent|
      if absChange < cfg.priceChangeLow then none
      else
        let zScore := bc.getPriceChangeZScore marketId priceChange.change
        let severity :=
          if cfg.priceChangeCritical ≤ absChange then AnomalySeverity.CRITICAL
          else if cfg.priceChangeHigh ≤ absChange then AnomalySeverity.HIGH
          else if
              (match zScore with
               | none => false
               | some z => z.geB cfg.zScoreHigh) then AnomalySeverity.HIGH
          else AnomalySeverity.MEDIUM
        let priceDirectionUp := decide (0 < priceChange.change)
        let impliedDirection :=
          if priceDirectionUp then ImpliedDirection.YES else ImpliedDirection.NO
        some
          { type := AnomalyType.RAPID_PRICE_MOVE
            marketId := marketId
            marketQuestion := market.question
            severity := severity
            timestamp := now
            details :=
              { priceChange := some priceChange.changePercent
                priceDirectionUp := some priceDirectionUp
                priceStart := some priceChange.start
                priceEnd := some priceChange.stop
                windowMinutes := some (windowMs / 60000)
                zScore := zOrUndefined zScore }
            currentPrice := priceChange.stop
            impliedDirection := impliedDirection }

/-- `AnomalyEngine.detectUnusualLowPriceBuy` in `anomaly-engine.ts`: returns
the updated `MarketStatsManager` (the mutation of `this.marketStats`) and the
optional anomaly.  Non-BUY trades return *before* the tracker is updated. -/
def detectUnusualLowPriceBuy (pcfg : PercentileConfig)
    (stats : MarketStatsManager) (trade : SmartMoneyTrade) (market : MarketInfo) :
    MarketStatsManager × Option Anomaly :=
  if trade.side ≠ Side.BUY then (stats, none)
  else
    let stats' := stats.addTrade pcfg trade.marketId trade.sizeUsd trade.price
      trade.side trade.timestamp
    match stats'.checkTrade pcfg trade.marketId trade.sizeUsd trade.price
        trade.side with
    | none => (stats', none)
    | some result =>
        match result.severity with
        | PercSeverity.NONE => (stats', none)
        | sev =>
            let severity :=
              match sev with
              | PercSeverity.CRITICAL => AnomalySeverity.CRITICAL
              | PercSeverity.HIGH => AnomalySeverity.HIGH
              | _ => AnomalySeverity.MEDIUM
            (stats',
              some
                { type := AnomalyType.UNUSUAL_LOW_PRICE_BUY
                  marketId := trade.marketId
                  marketQuestion := market.question
                  severity := severity
                  timestamp := trade.timestamp
                  details :=
                    { tradeSize := some trade.sizeUsd
                      percentile := some result.percentile
                      rank := some result.rank
                      totalTrades := some result.totalTrades
                      medianSize := some result.medianSize }
                  currentPrice := trade.price
                  impliedDirection := ImpliedDirection.YES
                  triggerTrade := some trade })

/-- `AnomalyEngine.checkAllAnomalies` in `anomaly-engine.ts`: the four
detectors in their fixed order, collecting the non-null results; returns the
updated percentile-tracker state as well. -/
def checkAllAnomalies (cfg : DetectionConfig) (pcfg : PercentileConfig)
    (bc : BaselineCalculator) (stats : MarketStatsManager) (now : ℚ)
    (trade : SmartMoneyTrade) (market : MarketInfo) (tradeStore : TradeStore) :
    MarketStatsManager × List Anomaly :=
  let (stats', unusualBuy) :=
    detectUnusualLowPriceBuy pcfg stats trade market
  let largeTrade := detectLargeTrade cfg bc trade market
  let volumeSpike := detectVolumeSpike cfg bc now trade.marketId market tradeStore
  let priceMove := detectRapidPriceMove cfg bc now trade.marketId market tradeStore
  (stats',
    unusualBuy.toList ++ largeTrade.toList ++ volumeSpike.toList ++
      priceMove.toList)

/-- `AnomalyEngine.meetsMinSeverity` in `anomaly-engine.ts`: position in
`['LOW', 'MEDIUM', 'HIGH', 'CRITICAL']`. -/
def severityIndex : AnomalySeverity → ℕ
  | AnomalySeverity.LOW => 0
  | AnomalySeverity.MEDIUM => 1
  | AnomalySeverity.HIGH => 2
  | AnomalySeverity.CRITICAL => 3

/-- `meetsMinSeverity`: `severityOrder.indexOf(a.severity) ≥
severityOrder.indexOf(minSeverity)`. -/
def meetsMinSeverity (cfg : DetectionConfig) (a : Anomaly) : Bool :=
  severityIndex cfg.minSeverity ≤ severityIndex a.severity

/-- `SmartMoneyDetector.checkAnomalies` in `detector.ts`, restricted to its
state effects on the engine and the baseline: run all detectors; fold
`hasAnomaly` over the anomalies that meet `minSeverity` (the others are
skipped by `continue`); update the baseline with `[trade]` only when
`hasAnomaly` stayed false.  (Alert delivery touches neither the engine nor the
baseline and is modelled separately by `AlertManager`.) -/
def checkAnomalies (cfg : DetectionConfig) (pcfg : PercentileConfig)
    (stats : MarketStatsManager) (bc : BaselineCalculator) (now : ℚ)
    (trade : SmartMoneyTrade) (market : MarketInfo) (tradeStore : TradeStore) :
    MarketStatsManager × BaselineCalculator × List Anomaly :=
  let (stats', anomalies) :=
    checkAllAnomalies cfg pcfg bc stats now trade market tradeStore
  let hasAnomaly :=
    anomalies.foldl (fun acc a => if meetsMinSeverity cfg a then true else acc)
      false
  let bc' :=
    if hasAnomaly then bc
    else bc.updateBaseline cfg now trade.marketId [trade]
  (stats', bc', anomalies)

/-! ## Alert Manager (`alerts.ts`, as listed in `smart-money/README.md`) -/

/-- Mutable state of `AlertManager`: the dedup map `recentAlerts`
(`key -> lastAlertTime` with `key = marketId + ":" + type`), the hourly
counter and its last reset time. -/
structure AlertManagerState where
  recentAlerts : List (String × ℚ)
  alertCount : ℕ
  alertCountResetTime : ℚ
deriving DecidableEq, Repr

/-- The constructor: `alertCount = 0`, `alertCountResetTime = Date.now()`
(the construction instant `t0`). -/
def AlertManagerState.init (t0 : ℚ) : AlertManagerState where
  recentAlerts := []
  alertCount := 0
  alertCountResetTime := t0

/-- The textual name of an anomaly type (template literal
`${anomaly.type}`). -/
def AnomalyType.name : AnomalyType → String
  | AnomalyType.LARGE_TRADE => "LARGE_TRADE"
  | AnomalyType.VOLUME_SPIKE => "VOLUME_SPIKE"
  | AnomalyType.RAPID_PRICE_MOVE => "RAPID_PRICE_MOVE"
  | AnomalyType.UNUSUAL_LOW_PRICE_BUY => "UNUSUAL_LOW_PRICE_BUY"

/-- `AlertManager.resetAlertCountIfNeeded`: reset the counter exactly when
more than one hour has passed since the last reset. -/
def resetAlertCountIfNeeded (st : AlertManagerState) (now : ℚ) :
    AlertManagerState :=
  if 60 * 60 * 1000 < now - st.alertCountResetTime then
    { st with alertCount := 0, alertCountResetTime := now }
  else st

/-- `AlertManager.sendAnomalyAlert` (`Date.now()` as `now`; the notifier's
success as `deliveryOk`): cooldown check on `marketId:type`, then the hourly
rate limit, then delivery; only on successful delivery are the dedup map and
the counter updated (and the alert appended to the store).  Returns the new
state and whether the alert was accepted. -/
def sendAnomalyAlert (cfg : DetectionConfig) (st : AlertManagerState)
    (now : ℚ) (marketId : String) (type : AnomalyType) (deliveryOk : Bool) :
    AlertManagerState × Bool :=
  let key := marketId ++ ":" ++ type.name
  match st.recentAlerts.lookup key with
  | some lastAlert =>
      if now - lastAlert < cfg.alertCooldownMs then (st, false)
      else
        let st1 := resetAlertCountIfNeeded st now
        if cfg.maxAlertsPerHour ≤ st1.alertCount then (st1, false)
        else if deliveryOk then
          ({ st1 with
              recentAlerts := alUpdate key (fun _ => now) st1.recentAlerts
              alertCount := st1.alertCount + 1 }, true)
        else (st1, false)
  | none =>
      let st1 := resetAlertCountIfNeeded st now
      if cfg.maxAlertsPerHour ≤ st1.alertCount then (st1, false)
      else if deliveryOk then
        ({ st1 with
            recentAlerts := alUpdate key (fun _ => now) st1.recentAlerts
            alertCount := st1.alertCount + 1 }, true)
      else (st1, false)

/-- One call to `sendAnomalyAlert` in a trace. -/
structure AlertEvent where
  now : ℚ
  marketId : String
  type : AnomalyType
  deliveryOk : Bool
deriving DecidableEq, Repr

/-- Run a trace of `sendAnomalyAlert` calls, collecting the send times of the
accepted alerts and the number of counter resets that fired. -/
def runAlerts (cfg : DetectionConfig) :
    AlertManagerState → List AlertEvent → AlertManagerState × List ℚ × ℕ
  | st, [] => (st, [], 0)
  | st, e :: es =>
      let didReset : Bool :=
        match st.recentAlerts.lookup (e.marketId ++ ":" ++ e.type.name) with
        | some lastAlert =>
            !decide (e.now - lastAlert < cfg.alertCooldownMs) &&
              decide (60 * 60 * 1000 < e.now - st.alertCountResetTime)
        | none => decide (60 * 60 * 1000 < e.now - st.alertCountResetTime)
      let (st', accepted) :=
        sendAnomalyAlert cfg st e.now e.marketId e.type e.deliveryOk
      let (stFin, times, resets) := runAlerts cfg st' es
      (stFin, (if accepted then [e.now] else []) ++ times,
        (if didReset then 1 else 0) + resets)

/-! ## Opportunity & cache state (`state.ts`) -/

/-- Leader outcome. -/
inductive Outcome
  | YES
  | NO
deriving DecidableEq, Repr

/-- The slice of `SingleMarket` (`types.ts` of the agent) used by the state
and monitor: id, question, end time (ISO string embedded as a millisecond
timestamp). -/
structure SingleMarket where
  id : String
  question : String
  endTime : ℚ
deriving DecidableEq, Repr

/-- `relationshipType` of `MarketRelation`. -/
inductive RelationshipType
  | SAME_OUTCOME
  | DIFFERENT_OUTCOME
  | UNRELATED
  | SAME_EVENT_REJECT
deriving DecidableEq, Repr

/-- The slice of `MarketRelation` (`types.ts` of the agent) read by `state.ts`
and `monitor.ts`. -/
structure MarketRelation where
  market1 : SingleMarket
  market2 : SingleMarket
  relationshipType : RelationshipType
  confidenceScore : ℚ
  leaderId : Option String
  followerId : Option String
  seriesId : Option String
deriving DecidableEq, Repr

/-- Opportunity lifecycle status (`'active' | 'threshold_triggered' |
'resolved'` in `state.ts`). -/
inductive OppStatus
  | active
  | threshold_triggered
  | resolved
deriving DecidableEq, Repr

/-- `TrackedOpportunity` in `state.ts` (ISO timestamps as `ℚ`
milliseconds). -/
structure TrackedOpportunity where
  id : String
  relation : MarketRelation
  leaderResolved : Bool
  leaderOutcome : Option Outcome
  notifiedAt : Option ℚ
  createdAt : ℚ
  thresholdTriggered : Bool
  thresholdTriggeredAt : Option ℚ
  thresholdPrice : Option ℚ
  status : OppStatus
  seriesId : Option String
deriving DecidableEq, Repr

/-- `AnalyzedPair` in `state.ts`. -/
structure AnalyzedPair where
  result : RelationshipType
  confidence : ℚ
  analyzedAt : ℚ
deriving DecidableEq, Repr

/-- The in-memory `OpportunityState` of `state.ts` (the parts the claims
touch: opportunities and the analyzed-pair cache). -/
structure OppState where
  opportunities : List TrackedOpportunity
  analyzedPairs : List (String × AnalyzedPair)
deriving DecidableEq, Repr

/-- A fresh state. -/
def OppState.empty : OppState where
  opportunities := []
  analyzedPairs := []

/-- Update the first element satisfying the predicate (the effect of
`array.find(...)` followed by mutation of the found element). -/
def updateFirst {α : Type} (p : α → Bool) (f : α → α) : List α → List α
  | [] => []
  | x :: xs => if p x then f x :: xs else x :: updateFirst p f xs

/-- `State.addOpportunity` in `state.ts` (`new Date()` as `now`): no-op when
the id `market1.id-market2.id` is already tracked, else push a fresh `active`
opportunity. -/
def OppState.addOpportunity (s : OppState) (now : ℚ)
    (relation : MarketRelation) : OppState :=
  let id := relation.market1.id ++ "-" ++ relation.market2.id
  if s.opportunities.any (fun opp => opp.id = id) then s
  else
    { s with
        opportunities :=
          s.opportunities ++
            [{ id := id
               relation := relation
               leaderResolved := false
               leaderOutcome := none
               notifiedAt := none
               createdAt := now
               thresholdTriggered := false
               thresholdTriggeredAt := none
               thresholdPrice := none
               status := OppStatus.active
               seriesId := relation.seriesId }] }

/-- `State.markLeaderResolved` in `state.ts`: on the first opportunity with
the given id, set `leaderResolved`, the outcome, `notifiedAt` and
`status = 'resolved'`. -/
def OppState.markLeaderResolved (s : OppState) (now : ℚ) (id : String)
    (outcome : Outcome) : OppState :=
  { s with
      opportunities :=
        updateFirst (fun o => o.id = id)
          (fun o =>
            { o with
                leaderResolved := true
                leaderOutcome := some outcome
                notifiedAt := some now
                status := OppStatus.resolved })
          s.opportunities }

/-- `State.markThresholdTriggered` in `state.ts`: on the first opportunity
with the given id, set `thresholdTriggered`, the trigger time and price, and
`status = 'threshold_triggered'` — unconditionally, whatever the current
status. -/
def OppState.markThresholdTriggered (s : OppState) (now : ℚ) (id : String)
    (price : ℚ) : OppState :=
  { s with
      opportunities :=
        updateFirst (fun o => o.id = id)
          (fun o =>
            { o with
                thresholdTriggered := true
                thresholdTriggeredAt := some now
                thresholdPrice := some price
                status := OppStatus.threshold_triggered })
          s.opportunities }

/-- `State.canonicalPairId` in `state.ts`: `[id1, id2].sort().join('-')`. -/
def canonicalPairId (id1 id2 : String) : String :=
  if id1 ≤ id2 then id1 ++ "-" ++ id2 else id2 ++ "-" ++ id1

/-- `State.isPairAnalyzed` in `state.ts`. -/
def OppState.isPairAnalyzed (s : OppState) (id1 id2 : String) : Bool :=
  (s.analyzedPairs.lookup (canonicalPairId id1 id2)).isSome

/-- `State.getPairResult` in `state.ts`. -/
def OppState.getPairResult (s : OppState) (id1 id2 : String) :
    Option AnalyzedPair :=
  s.analyzedPairs.lookup (canonicalPairId id1 id2)

/-- `State.savePairResult` in `state.ts` (`new Date()` as `now`). -/
def OppState.savePairResult (s : OppState) (now : ℚ) (id1 id2 : String)
    (result : RelationshipType) (confidence : ℚ) : OppState :=
  { s with
      analyzedPairs :=
        alUpdate (canonicalPairId id1 id2)
          (fun _ => { result := result, confidence := confidence
                      analyzedAt := now })
          s.analyzedPairs }

/-- Rank of a lifecycle status along the forward direction
`active → threshold_triggered → resolved`. -/
def statusRank : OppStatus → ℕ
  | OppStatus.active => 0
  | OppStatus.threshold_triggered => 1
  | OppStatus.resolved => 2

/-! ## Helper lemmas: the binary-search loop on sorted arrays -/

/-- In a `≤`-sorted list, values are monotone in the index (via `getD`). -/
theorem sorted_getD_mono (l : List ℚ) (hs : l.Sorted (· ≤ ·)) (i j : ℕ)
    (hij : i ≤ j) (hj : j < l.length) : l.getD i 0 ≤ l.getD j 0 := by
  have hi : i < l.length := lt_of_le_of_lt hij hj
  rw [List.getD_eq_getElem l 0 hi, List.getD_eq_getElem l 0 hj]
  rcases eq_or_lt_of_le hij with rfl | hlt
  · exact le_refl _
  · exact List.pairwise_iff_get.mp hs ⟨i, hi⟩ ⟨j, hj⟩ hlt

/-- If the elements strictly below `v` are exactly those at index `< k`,
then `k` is the count of elements `< v`. -/
theorem countP_lt_eq_of_bounds (l : List ℚ) (v : ℚ) (k : ℕ) (hk : k ≤ l.length)
    (hlo : ∀ i, i < k → l.getD i 0 < v)
    (hhi : ∀ i, k ≤ i → i < l.length → ¬ l.getD i 0 < v) :
    l.countP (fun b => decide (b < v)) = k := by
  have hsplit := List.take_append_drop k l
  calc l.countP (fun b => decide (b < v))
      = (List.take k l ++ List.drop k l).countP (fun b => decide (b < v)) := by
        rw [hsplit]
    _ = (List.take k l).countP (fun b => decide (b < v)) +
        (List.drop k l).countP (fun b => decide (b < v)) :=
        List.countP_append _ _ _
    _ = k + 0 := by
        congr 1
        · have hlen : (List.take k l).length = k := by
            simp [List.length_take]
            omega
          have hall : (List.take k l).countP (fun b => decide (b < v)) =
              (List.take k l).length := by
            apply List.countP_eq_length.mpr
            intro a ha
            obtain ⟨i, hi, rfl⟩ := List.mem_iff_getElem.mp ha
            have hi' : i < k := by
              simpa [hlen] using hi
            have hb : i < l.length := lt_of_lt_of_le hi' hk
            have : (List.take k l)[i] = l[i] := by
              simp [List.getElem_take]
            rw [this]
            have := hlo i hi'
            rw [List.getD_eq_getElem l 0 (lt_of_lt_of_le hi' hk)] at this
            simpa using this
          rw [hall, hlen]
        · apply List.countP_eq_zero.mpr
          intro a ha
          obtain ⟨i, hi, rfl⟩ := List.mem_iff_getElem.mp ha
          have hι : k + i < l.length := by
            have := hi
            simp [List.length_drop] at this
            omega
          have : (List.drop k l)[i] = l[k + i] := by
            simp [List.getElem_drop]
          rw [this]
          have := hhi (k + i) (Nat.le_add_right k i) hι
          rw [List.getD_eq_getElem l 0 hι] at this
          simpa using this
    _ = k := Nat.add_zero k

/-- The binary-search loop computes, on a sorted list, the number of elements
strictly below `value`. -/
theorem lowerBoundAux_eq (l : List ℚ) (v : ℚ) :
    ∀ (fuel left right : ℕ), right - left ≤ fuel → left ≤ right →
    right ≤ l.length →
    (∀ i, i < left → l.getD i 0 < v) →
    (∀ i, right ≤ i → i < l.length → ¬ l.getD i 0 < v) →
    l.Sorted (· ≤ ·) →
    lowerBoundAux l v left right = l.countP (fun b => decide (b < v)) := by
  intro fuel
  induction fuel with
  | zero =>
      intro left right hfuel hle hlen hlo hhi _
      have hlr : left = right := by omega
      rw [lowerBoundAux]
      simp only [hlr]
      rw [dif_neg (lt_irrefl right)]
      exact (countP_lt_eq_of_bounds l v right hlen
        (by simpa [hlr] using hlo) hhi).symm
  | succ n ih =>
      intro left right hfuel hle hlen hlo hhi hs
      rw [lowerBoundAux]
      by_cases h : left < right
      · rw [dif_pos h]
        have hmid1 : left ≤ (left + right) / 2 := by omega
        have hmid2 : (left + right) / 2 < right := by omega
        by_cases hv : l.getD ((left + right) / 2) 0 < v
        · rw [if_pos hv]
          apply ih ((left + right) / 2 + 1) right (by omega) (by omega) hlen
          · intro i hi
            have hi' : i ≤ (left + right) / 2 := by omega
            have : l.getD i 0 ≤ l.getD ((left + right) / 2) 0 :=
              sorted_getD_mono l hs i _ hi' (lt_of_lt_of_le hmid2 hlen)
            exact lt_of_le_of_lt this hv
          · exact hhi
          · exact hs
        · rw [if_neg hv]
          apply ih left ((left + right) / 2) (by omega) (by omega)
            (le_of_lt (lt_of_lt_of_le hmid2 hlen)) hlo
          · intro i hmi hil
            have : l.getD ((left + right) / 2) 0 ≤ l.getD i 0 :=
              sorted_getD_mono l hs _ i hmi hil
            intro hcon
            exact hv (lt_of_le_of_lt this hcon)
          · exact hs
      · rw [dif_neg h]
        have hlr : left = right := by omega
        exact (countP_lt_eq_of_bounds l v left (hlr ▸ hlen) hlo
          (by simpa [hlr] using hhi)).symm

/-- `countSmaller` on a sorted list is the count of elements strictly below
the probe. -/
theorem countSmaller_eq (l : List ℚ) (v : ℚ) (hs : l.Sorted (· ≤ ·)) :
    countSmaller l v = l.countP (fun b => decide (b < v)) := by
  apply lowerBoundAux_eq l v l.length 0 l.length (by omega) (Nat.zero_le _)
    (le_refl _) (fun i hi => absurd hi (Nat.not_lt_zero i)) _ hs
  intro i hi hil
  omega

/-- On a sorted list, the count of elements strictly below `v` is the length
of the prefix of elements strictly below `v`. -/
theorem countP_lt_eq_takeWhile (l : List ℚ) (v : ℚ) (hs : l.Sorted (· ≤ ·)) :
    l.countP (fun b => decide (b < v)) =
      (l.takeWhile (fun b => decide (b < v))).length := by
  induction l with
  | nil => rfl
  | cons a l ih =>
      rw [List.sorted_cons] at hs
      by_cases ha : a < v
      · rw [List.countP_cons_of_pos _ _ (by simpa using ha)]
        rw [List.takeWhile_cons_of_pos (by simpa using ha)]
        simp [ih hs.2]
      · rw [List.countP_cons_of_neg _ _ (by simpa using ha)]
        rw [List.takeWhile_cons_of_neg (by simpa using ha)]
        simp only [List.length_nil]
        apply List.countP_eq_zero.mpr
        intro b hb
        have hab : a ≤ b := hs.1 b hb
        have hva : v ≤ a := le_of_not_lt ha
        simp only [decide_eq_true_eq]
        exact not_lt.mpr (le_trans hva hab)

/-- Inserting after a prefix: `insertIdx` at the length of the left part. -/
theorem insertIdx_length_append (t d : List ℚ) (v : ℚ) :
    (t ++ d).insertIdx t.length v = t ++ v :: d := by
  induction t with
  | nil => rfl
  | cons a t ih =>
      show List.insertIdx (t.length + 1) v (a :: (t ++ d)) = a :: (t ++ v :: d)
      rw [List.insertIdx_succ_cons, ih]

/-- On a sorted list, `insertSorted` coincides with Mathlib's
`orderedInsert`. -/
theorem insertSorted_eq_orderedInsert (l : List ℚ) (v : ℚ)
    (hs : l.Sorted (· ≤ ·)) :
    insertSorted l v = List.orderedInsert (· ≤ ·) v l := by
  have hpred : (fun b => decide (b < v)) = (fun b => decide (¬ v ≤ b)) := by
    funext b
    exact decide_eq_decide.mpr (lt_iff_not_ge b v)
  have hcount : lowerBoundAux l v 0 l.length =
      (l.takeWhile (fun b => decide (¬ v ≤ b))).length := by
    have h1 := countSmaller_eq l v hs
    rw [countSmaller] at h1
    rw [h1, countP_lt_eq_takeWhile l v hs, hpred]
  rw [insertSorted, hcount]
  have h2 := insertIdx_length_append (l.takeWhile (fun b => decide (¬ v ≤ b)))
    (l.dropWhile (fun b => decide (¬ v ≤ b))) v
  rw [List.takeWhile_append_dropWhile] at h2
  rw [h2, List.orderedInsert_eq_take_drop]

/-- `insertSorted` keeps the list sorted. -/
theorem insertSorted_sorted (l : List ℚ) (v : ℚ) (hs : l.Sorted (· ≤ ·)) :
    (insertSorted l v).Sorted (· ≤ ·) := by
  rw [insertSorted_eq_orderedInsert l v hs]
  exact List.Sorted.orderedInsert v l hs

/-- `insertSorted` is, as a multiset, the insertion of the value. -/
theorem insertSorted_perm (l : List ℚ) (v : ℚ) (hs : l.Sorted (· ≤ ·)) :
    List.Perm (insertSorted l v) (v :: l) := by
  rw [insertSorted_eq_orderedInsert l v hs]
  exact List.perm_orderedInsert _ v l

/-- `removeSorted` keeps the list sorted. -/
theorem removeSorted_sorted (l : List ℚ) (v : ℚ) (hs : l.Sorted (· ≤ ·)) :
    (removeSorted l v).Sorted (· ≤ ·) :=
  hs.sublist (List.erase_sublist v l)

/-- The inserted value is present after `insertSorted`. -/
theorem mem_insertSorted (l : List ℚ) (v : ℚ) (hs : l.Sorted (· ≤ ·)) :
    v ∈ insertSorted l v :=
  (insertSorted_perm l v hs).symm.subset (List.mem_cons_self v l)

/-! ## Helper lemmas: association lists, folds -/

/-- Looking up the updated key after `alUpdate`. -/
theorem lookup_alUpdate_self {β : Type} (k : String) (f : Option β → β)
    (l : List (String × β)) :
    (alUpdate k f l).lookup k = some (f (l.lookup k)) := by
  induction l with
  | nil => simp [alUpdate, List.lookup]
  | cons hd tl ih =>
      obtain ⟨a, b⟩ := hd
      by_cases h : a = k
      · subst h
        simp [alUpdate, List.lookup]
      · have hne : k ≠ a := fun hc => h hc.symm
        simp only [alUpdate, if_neg h]
        show (match k == a with
          | true => some b
          | false => List.lookup k (alUpdate k f tl)) =
          some (f (match k == a with
            | true => some b
            | false => List.lookup k tl))
        rw [beq_eq_false_iff_ne.mpr hne]
        exact ih

/-- Looking up a different key after `alUpdate`. -/
theorem lookup_alUpdate_other {β : Type} (k k' : String) (h : k' ≠ k)
    (f : Option β → β) (l : List (String × β)) :
    (alUpdate k f l).lookup k' = l.lookup k' := by
  induction l with
  | nil =>
      simp only [alUpdate, List.lookup]
      rw [beq_eq_false_iff_ne.mpr h]
  | cons hd tl ih =>
      obtain ⟨a, b⟩ := hd
      by_cases ha : a = k
      · subst ha
        simp only [alUpdate, if_pos rfl]
        show (match k' == a with
          | true => some (f (some b))
          | false => List.lookup k' tl) =
          (match k' == a with
          | true => some b
          | false => List.lookup k' tl)
        rw [beq_eq_false_iff_ne.mpr h]
      · simp only [alUpdate, if_neg ha]
        show (match k' == a with
          | true => some b
          | false => List.lookup k' (alUpdate k f tl)) =
          (match k' == a with
          | true => some b
          | false => List.lookup k' tl)
        by_cases hka : k' = a
        · rw [beq_iff_eq.mpr hka]
        · rw [beq_eq_false_iff_ne.mpr hka]
          exact ih

/-- The `hasAnomaly` accumulation loop of `checkAnomalies` is `List.any`. -/
theorem foldl_if_or_eq_any {α : Type} (p : α → Bool) (l : List α) :
    ∀ acc : Bool,
      l.foldl (fun acc a => if p a then true else acc) acc = (acc || l.any p) := by
  induction l with
  | nil => intro acc; simp
  | cons a t ih =>
      intro acc
      rw [List.foldl_cons, List.any_cons]
      by_cases h : p a = true
      · rw [if_pos h, ih true, h]
        simp
      · rw [if_neg h, ih]
        have hpa : p a = false := by simpa using h
        rw [hpa]
        simp

/-- `Forall₂` of a reflexive-on-members relation with itself. -/
theorem forall₂_refl_of_mem {α : Type} (r : α → α → Prop) (l : List α)
    (h : ∀ x ∈ l, r x x) : List.Forall₂ r l l := by
  induction l with
  | nil => exact List.Forall₂.nil
  | cons a t ih =>
      exact List.Forall₂.cons (h a (List.mem_cons_self a t))
        (ih (fun x hx => h x (List.mem_cons_of_mem a hx)))

/-- `updateFirst` relates the old and new lists pointwise: each element is
either untouched or replaced by `f` of itself. -/
theorem forall₂_updateFirst {α : Type} (p : α → Bool) (f : α → α)
    (r : α → α → Prop) (l : List α)
    (hf : ∀ x ∈ l, r x (f x)) (hr : ∀ x ∈ l, r x x) :
    List.Forall₂ r l (updateFirst p f l) := by
  induction l with
  | nil => exact List.Forall₂.nil
  | cons a t ih =>
      simp only [updateFirst]
      by_cases h : p a
      · rw [if_pos h]
        exact List.Forall₂.cons (hf a (List.mem_cons_self a t))
          (forall₂_refl_of_mem r t (fun x hx => hr x (List.mem_cons_of_mem a hx)))
      · rw [if_neg h]
        exact List.Forall₂.cons (hr a (List.mem_cons_self a t))
          (ih (fun x hx => hf x (List.mem_cons_of_mem a hx))
            (fun x hx => hr x (List.mem_cons_of_mem a hx)))

/-! ## The percentile-tracker invariant (spec invariant I2) -/

/-- Invariant of one `MarketStats` relative to the full sequence `seen` of
records ever added: the FIFO buffer holds the last `maxSamples` records, the
sorted array is sorted, and as a multiset it consists of exactly the USD sizes
of the tracked low-price BUYs in the buffer. -/
def statsInvariant (cfg : PercentileConfig) (seen : List TradeRecord)
    (st : MarketStats) : Prop :=
  st.trades = seen.drop (seen.length - cfg.maxSamples) ∧
  st.lowPriceBuys.Sorted (· ≤ ·) ∧
  List.Perm st.lowPriceBuys
    ((st.trades.filter (isLowPriceBuy cfg)).map (fun t => t.sizeUsd))

/-- The empty tracker satisfies the invariant for the empty history. -/
theorem statsInvariant_empty (cfg : PercentileConfig) :
    statsInvariant cfg [] MarketStats.empty :=
  ⟨by simp [MarketStats.empty], List.sorted_nil, by simp [MarketStats.empty]⟩

/-- `addTrade` without overflow: plain append and optional insert. -/
theorem addTrade_of_le (cfg : PercentileConfig) (st : MarketStats)
    (r : TradeRecord) (h : ¬ cfg.maxSamples < (st.trades ++ [r]).length) :
    st.addTrade cfg r =
      { trades := st.trades ++ [r]
        lowPriceBuys :=
          if isLowPriceBuy cfg r then insertSorted st.lowPriceBuys r.sizeUsd
          else st.lowPriceBuys } := by
  rw [MarketStats.addTrade]
  exact if_neg h

/-- `addTrade` with overflow: the oldest record is shifted out and, when it
was tracked, its size removed. -/
theorem addTrade_of_gt (cfg : PercentileConfig) (st : MarketStats)
    (r : TradeRecord) (h : cfg.maxSamples < (st.trades ++ [r]).length) :
    st.addTrade cfg r =
      (let lpb1 :=
        if isLowPriceBuy cfg r then insertSorted st.lowPriceBuys r.sizeUsd
        else st.lowPriceBuys
      let removed := ((st.trades ++ [r]).head?).getD r
      { trades := (st.trades ++ [r]).tail
        lowPriceBuys :=
          if isLowPriceBuy cfg removed then removeSorted lpb1 removed.sizeUsd
          else lpb1 }) := by
  rw [MarketStats.addTrade]
  rw [if_pos h]
  cases st.trades with
  | nil => rfl
  | cons a t => rfl

/-- A nonempty append splits as head-of-`head?` and tail. -/
theorem cons_head_tail_append (st : List TradeRecord) (r : TradeRecord) :
    st ++ [r] = ((st ++ [r]).head?).getD r :: (st ++ [r]).tail := by
  cases st with
  | nil => rfl
  | cons a t => rfl

/-- `addTrade` preserves the invariant, extending the history. -/
theorem statsInvariant_addTrade (cfg : PercentileConfig)
    (seen : List TradeRecord) (st : MarketStats) (r : TradeRecord)
    (hinv : statsInvariant cfg seen st) :
    statsInvariant cfg (seen ++ [r]) (st.addTrade cfg r) := by
  obtain ⟨htr, hsort, hperm⟩ := hinv
  have hlen : st.trades.length = seen.length - (seen.length - cfg.maxSamples) := by
    rw [htr, List.length_drop]
  -- the buffer with the new record appended
  have hpush : st.trades ++ [r] =
      List.drop (seen.length - cfg.maxSamples) (seen ++ [r]) := by
    rw [List.drop_append_eq_append_drop, ← htr]
    congr 1
    have h0 : seen.length - cfg.maxSamples - seen.length = 0 := by omega
    rw [h0, List.drop_zero]
  -- the sorted array after the optional insert
  set lpb1 := if isLowPriceBuy cfg r then insertSorted st.lowPriceBuys r.sizeUsd
    else st.lowPriceBuys with hlpb1
  have hsort1 : lpb1.Sorted (· ≤ ·) := by
    rw [hlpb1]
    by_cases h : isLowPriceBuy cfg r
    · rw [if_pos h]
      exact insertSorted_sorted _ _ hsort
    · rw [if_neg h]
      exact hsort
  have hperm1 : List.Perm lpb1
      (((st.trades ++ [r]).filter (isLowPriceBuy cfg)).map (fun t => t.sizeUsd)) := by
    rw [hlpb1, List.filter_append]
    by_cases h : isLowPriceBuy cfg r
    · rw [if_pos h]
      have h1 : List.Perm (insertSorted st.lowPriceBuys r.sizeUsd)
          (r.sizeUsd :: st.lowPriceBuys) := insertSorted_perm _ _ hsort
      have h2 : List.filter (isLowPriceBuy cfg) [r] = [r] := by
        simp [h]
      rw [h2, List.map_append]
      refine h1.trans ?_
      refine (List.Perm.cons r.sizeUsd hperm).trans ?_
      have h3 : (List.map (fun t => t.sizeUsd) [r]) = [r.sizeUsd] := rfl
      rw [h3]
      exact (List.perm_append_singleton _ _).symm
    · rw [if_neg h]
      have h2 : List.filter (isLowPriceBuy cfg) [r] = [] := by
        simp [h]
      rw [h2, List.append_nil]
      exact hperm
  by_cases hmax : cfg.maxSamples < (st.trades ++ [r]).length
  · rw [addTrade_of_gt cfg st r hmax]
    simp only [← hlpb1]
    set removed := ((st.trades ++ [r]).head?).getD r with hrem
    have hconsSplit : st.trades ++ [r] = removed :: (st.trades ++ [r]).tail :=
      cons_head_tail_append st.trades r
    have htail : (st.trades ++ [r]).tail =
        List.drop (seen.length + 1 - cfg.maxSamples) (seen ++ [r]) := by
      have h2 : seen.length + 1 - cfg.maxSamples =
          (seen.length - cfg.maxSamples) + 1 := by
        have hl : (st.trades ++ [r]).length = st.trades.length + 1 := by simp
        omega
      rw [hpush, h2, ← List.tail_drop]
    refine ⟨by simpa using htail, ?_, ?_⟩
    · by_cases hlow : isLowPriceBuy cfg removed
      · rw [if_pos hlow]
        exact removeSorted_sorted _ _ hsort1
      · rw [if_neg hlow]
        exact hsort1
    · have hperm2 : List.Perm lpb1
          (((removed :: (st.trades ++ [r]).tail).filter (isLowPriceBuy cfg)).map
            (fun t => t.sizeUsd)) := by
        rw [← hconsSplit]
        exact hperm1
      by_cases hlow : isLowPriceBuy cfg removed
      · rw [if_pos hlow]
        rw [List.filter_cons_of_pos hlow, List.map_cons] at hperm2
        have h3 := hperm2.erase removed.sizeUsd
        rw [List.erase_cons_head] at h3
        exact h3
      · rw [if_neg hlow]
        rw [List.filter_cons_of_neg hlow] at hperm2
        exact hperm2
  · rw [addTrade_of_le cfg st r hmax]
    refine ⟨?_, hsort1, hperm1⟩
    have hl : (st.trades ++ [r]).length = st.trades.length + 1 := by simp
    have hgoal : (seen ++ [r]).length - cfg.maxSamples = 0 := by
      simp only [List.length_append, List.length_cons, List.length_nil]
      omega
    have h1 : seen.length - cfg.maxSamples = 0 := by omega
    show st.trades ++ [r] = (seen ++ [r]).drop ((seen ++ [r]).length - cfg.maxSamples)
    rw [hgoal, List.drop_zero, htr, h1, List.drop_zero]

/-- Folding a record list into a tracker from the empty state establishes the
invariant. -/
theorem statsInvariant_foldl (cfg : PercentileConfig) (rs : List TradeRecord) :
    statsInvariant cfg rs
      (rs.foldl (fun st r => st.addTrade cfg r) MarketStats.empty) := by
  suffices h : ∀ (rs' : List TradeRecord) (seen : List TradeRecord)
      (st : MarketStats), statsInvariant cfg seen st →
      statsInvariant cfg (seen ++ rs')
        (rs'.foldl (fun st r => st.addTrade cfg r) st) by
    simpa using h rs [] MarketStats.empty (statsInvariant_empty cfg)
  intro rs'
  induction rs' with
  | nil => intro seen st h; simpa using h
  | cons r rest ih =>
      intro seen st h
      have h1 := statsInvariant_addTrade cfg seen st r h
      have h2 := ih (seen ++ [r]) (st.addTrade cfg r) h1
      simpa using h2

/-- The `TradeRecord` built by `MarketStatsManager.addTrade` from a
`SmartMoneyTrade` (as `detectUnusualLowPriceBuy` passes the fields). -/
def toRecord (t : SmartMoneyTrade) : TradeRecord where
  sizeUsd := t.sizeUsd
  price := t.price
  timestamp := t.timestamp
  side := t.side

/-- Feed a sequence of trades through the Unusual Low-Price Buy detector,
keeping only its state effect (one `MarketInfo` per market id supplied by
`mkt`; the anomaly outputs do not influence the state). -/
def runULPB (pcfg : PercentileConfig) (mkt : String → MarketInfo) :
    MarketStatsManager → List SmartMoneyTrade → MarketStatsManager
  | mgr, [] => mgr
  | mgr, t :: ts =>
      runULPB pcfg mkt (detectUnusualLowPriceBuy pcfg mgr t (mkt t.marketId)).1 ts

/-- Reading one market after `MarketStatsManager.addTrade`. -/
theorem getMarket_addTrade (pcfg : PercentileConfig) (mgr : MarketStatsManager)
    (marketId : String) (sizeUsd price : ℚ) (side : Side) (ts : ℚ) (m : String) :
    (mgr.addTrade pcfg marketId sizeUsd price side ts).getMarket m =
      if m = marketId then
        (mgr.getMarket marketId).addTrade pcfg
          { sizeUsd := sizeUsd, price := price, timestamp := ts, side := side }
      else mgr.getMarket m := by
  by_cases h : m = marketId
  · subst h
    rw [if_pos rfl]
    show ((alUpdate m _ mgr.markets).lookup m).getD MarketStats.empty = _
    rw [lookup_alUpdate_self]
    rfl
  · rw [if_neg h]
    show ((alUpdate marketId _ mgr.markets).lookup m).getD MarketStats.empty = _
    rw [lookup_alUpdate_other marketId m h]
    rfl

/-- The per-market state after feeding a trade sequence through the detector
is the fold of `MarketStats.addTrade` over that market's BUY trades. -/
theorem getMarket_runULPB (pcfg : PercentileConfig) (mkt : String → MarketInfo)
    (trs : List SmartMoneyTrade) (mgr : MarketStatsManager) (m : String) :
    (runULPB pcfg mkt mgr trs).getMarket m =
      ((trs.filter (fun t => t.side = Side.BUY && t.marketId = m)).map
        toRecord).foldl (fun st r => st.addTrade pcfg r) (mgr.getMarket m) := by
  induction trs generalizing mgr with
  | nil => rfl
  | cons t ts ih =>
      rw [runULPB]
      by_cases hside : t.side = Side.BUY
      · have hdet : (detectUnusualLowPriceBuy pcfg mgr t (mkt t.marketId)).1 =
            mgr.addTrade pcfg t.marketId t.sizeUsd t.price t.side t.timestamp := by
          rw [detectUnusualLowPriceBuy]
          rw [if_neg (by simp [hside])]
          cases hc : (mgr.addTrade pcfg t.marketId t.sizeUsd t.price t.side
              t.timestamp).checkTrade pcfg t.marketId t.sizeUsd t.price t.side with
          | none => simp only [hc]
          | some result =>
              cases hres : result.severity
              all_goals simp only [hc, hres]
        rw [hdet, ih]
        by_cases hm : t.marketId = m
        · subst hm
          rw [List.filter_cons_of_pos (by simp [hside]), List.map_cons,
            List.foldl_cons]
          congr 1
          rw [getMarket_addTrade, if_pos rfl]
          simp [toRecord, hside]
        · rw [List.filter_cons_of_neg (by simp [hm])]
          congr 1
          rw [getMarket_addTrade, if_neg (fun hc => hm hc.symm)]
      · have hdet : (detectUnusualLowPriceBuy pcfg mgr t (mkt t.marketId)).1 = mgr := by
          rw [detectUnusualLowPriceBuy]
          rw [if_pos (by simp [hside])]
        rw [hdet, ih]
        rw [List.filter_cons_of_neg (by simp [hside])]

/-- `addTrade` preserves sortedness and the multiset correspondence between
the sorted array and the buffer (independently of the FIFO-suffix part of the
invariant). -/
theorem addTrade_sorted_perm (cfg : PercentileConfig) (st : MarketStats)
    (r : TradeRecord) (hsort : st.lowPriceBuys.Sorted (· ≤ ·))
    (hperm : List.Perm st.lowPriceBuys
      ((st.trades.filter (isLowPriceBuy cfg)).map (fun t => t.sizeUsd))) :
    (st.addTrade cfg r).lowPriceBuys.Sorted (· ≤ ·) ∧
    List.Perm (st.addTrade cfg r).lowPriceBuys
      (((st.addTrade cfg r).trades.filter (isLowPriceBuy cfg)).map
        (fun t => t.sizeUsd)) := by
  set lpb1 := if isLowPriceBuy cfg r then insertSorted st.lowPriceBuys r.sizeUsd
    else st.lowPriceBuys with hlpb1
  have hsort1 : lpb1.Sorted (· ≤ ·) := by
    rw [hlpb1]
    by_cases h : isLowPriceBuy cfg r
    · rw [if_pos h]
      exact insertSorted_sorted _ _ hsort
    · rw [if_neg h]
      exact hsort
  have hperm1 : List.Perm lpb1
      (((st.trades ++ [r]).filter (isLowPriceBuy cfg)).map (fun t => t.sizeUsd)) := by
    rw [hlpb1, List.filter_append]
    by_cases h : isLowPriceBuy cfg r
    · rw [if_pos h]
      have h1 : List.Perm (insertSorted st.lowPriceBuys r.sizeUsd)
          (r.sizeUsd :: st.lowPriceBuys) := insertSorted_perm _ _ hsort
      have h2 : List.filter (isLowPriceBuy cfg) [r] = [r] := by
        simp [h]
      rw [h2, List.map_append]
      refine h1.trans ?_
      refine (List.Perm.cons r.sizeUsd hperm).trans ?_
      have h3 : (List.map (fun t => t.sizeUsd) [r]) = [r.sizeUsd] := rfl
      rw [h3]
      exact (List.perm_append_singleton _ _).symm
    · rw [if_neg h]
      have h2 : List.filter (isLowPriceBuy cfg) [r] = [] := by
        simp [h]
      rw [h2, List.append_nil]
      exact hperm
  by_cases hmax : cfg.maxSamples < (st.trades ++ [r]).length
  · rw [addTrade_of_gt cfg st r hmax]
    simp only [← hlpb1]
    set removed := ((st.trades ++ [r]).head?).getD r with hrem
    have hconsSplit : st.trades ++ [r] = removed :: (st.trades ++ [r]).tail :=
      cons_head_tail_append st.trades r
    refine ⟨?_, ?_⟩
    · by_cases hlow : isLowPriceBuy cfg removed
      · rw [if_pos hlow]
        exact removeSorted_sorted _ _ hsort1
      · rw [if_neg hlow]
        exact hsort1
    · have hperm2 : List.Perm lpb1
          (((removed :: (st.trades ++ [r]).tail).filter (isLowPriceBuy cfg)).map
            (fun t => t.sizeUsd)) := by
        rw [← hconsSplit]
        exact hperm1
      by_cases hlow : isLowPriceBuy cfg removed
      · rw [if_pos hlow]
        rw [List.filter_cons_of_pos hlow, List.map_cons] at hperm2
        have h3 := hperm2.erase removed.sizeUsd
        rw [List.erase_cons_head] at h3
        exact h3
      · rw [if_neg hlow]
        rw [List.filter_cons_of_neg hlow] at hperm2
        exact hperm2
  · rw [addTrade_of_le cfg st r hmax]
    exact ⟨hsort1, hperm1⟩

/-- The added record stays in the buffer whenever `maxSamples ≥ 1`. -/
theorem mem_addTrade_trades (cfg : PercentileConfig) (st : MarketStats)
    (r : TradeRecord) (hmax1 : 1 ≤ cfg.maxSamples) :
    r ∈ (st.addTrade cfg r).trades := by
  by_cases hmax : cfg.maxSamples < (st.trades ++ [r]).length
  · rw [addTrade_of_gt cfg st r hmax]
    cases hst : st.trades with
    | nil =>
        rw [hst] at hmax
        simp at hmax
        omega
    | cons a t =>
        show r ∈ ((a :: t ++ [r]).tail)
        simp
  · rw [addTrade_of_le cfg st r hmax]
    show r ∈ st.trades ++ [r]
    simp

/-! ## Claim theorems -/

/-- Trades for the C1 counterexample: two in-window trades of distinct USD
sizes (so the trade-size stddev is nonzero) feeding `updateBaseline`. -/
def c1trade1 : SmartMoneyTrade :=
  { marketId := "m", conditionId := "c", tokenId := "tok", price := 1/2
    size := 20, sizeUsd := 10, side := Side.BUY, timestamp := 0 }

/-- Second C1 trade. -/
def c1trade2 : SmartMoneyTrade :=
  { marketId := "m", conditionId := "c", tokenId := "tok", price := 1/2
    size := 40, sizeUsd := 20, side := Side.BUY, timestamp := 1 }

/-- The calculator after one `updateBaseline` call with the two trades. -/
def c1calc : BaselineCalculator :=
  BaselineCalculator.empty.updateBaseline DEFAULT_CONFIG 0 "m"
    [c1trade1, c1trade2]

unseal Rat.add Rat.mul Rat.inv Rat.sub in
/-- C1 counterexample: after `updateBaseline` with two trades the stored
baseline has `sampleCount = 2 < minSamplesForBaseline = 100`, yet
`getTradeSizeZScore` returns a non-null z-score — refuting the claim that the
z-score queries return null whenever `sampleCount < minSamplesForBaseline`. -/
theorem C1_counterexample :
    ((c1calc.getBaseline "m").map (fun b => b.sampleCount) = some 2) ∧
    2 < DEFAULT_CONFIG.minSamplesForBaseline ∧
    (c1calc.getTradeSizeZScore "m" 30).isSome = true ∧
    c1calc.isBaselineReady DEFAULT_CONFIG "m" = false := by
  decide

/-- C1, amended: each z-score query returns null exactly when the market has
no stored baseline or the corresponding standard deviation is zero; the
`sampleCount ≥ minSamplesForBaseline` gate lives only in `isBaselineReady`
and is not consulted by the queries. -/
theorem C1_zscore_null_iff_stddev_zero (bc : BaselineCalculator) (m : String)
    (x obs w dlt : ℚ) :
    (bc.getTradeSizeZScore m x = none ↔
      ∀ b ∈ bc.getBaseline m, b.stdDevTradeSizeSq = 0) ∧
    (bc.getVolumeZScore m obs w = none ↔
      ∀ b ∈ bc.getBaseline m, b.stdDevVolumePerHourSq = 0) ∧
    (bc.getPriceChangeZScore m dlt = none ↔
      ∀ b ∈ bc.getBaseline m, b.stdDevPriceChangePerHourSq = 0) := by
  refine ⟨?_, ?_, ?_⟩
  · cases h : bc.getBaseline m with
    | none => simp [BaselineCalculator.getTradeSizeZScore, h]
    | some b =>
        by_cases hz : b.stdDevTradeSizeSq = 0
        · simp [BaselineCalculator.getTradeSizeZScore, h, hz]
        · simp [BaselineCalculator.getTradeSizeZScore, h, hz]
  · cases h : bc.getBaseline m with
    | none => simp [BaselineCalculator.getVolumeZScore, h]
    | some b =>
        by_cases hz : b.stdDevVolumePerHourSq = 0
        · simp [BaselineCalculator.getVolumeZScore, h, hz]
        · simp [BaselineCalculator.getVolumeZScore, h, hz]
  · cases h : bc.getBaseline m with
    | none => simp [BaselineCalculator.getPriceChangeZScore, h]
    | some b =>
        by_cases hz : b.stdDevPriceChangePerHourSq = 0
        · simp [BaselineCalculator.getPriceChangeZScore, h, hz]
        · simp [BaselineCalculator.getPriceChangeZScore, h, hz]

/-- The market used by concrete detector scenarios. -/
def market0 : MarketInfo := { id := "m", question := "q" }

/-- A BUY trade at price 0.5 with the given USD size and timestamp. -/
def c2trade (sizeUsd ts : ℚ) : SmartMoneyTrade :=
  { marketId := "m", conditionId := "c", tokenId := "tok", price := 1/2
    size := 2 * sizeUsd, sizeUsd := sizeUsd, side := Side.BUY, timestamp := ts }

unseal Rat.add Rat.mul Rat.inv Rat.sub in
/-- C2 counterexample: with no baseline and the default configuration, a
$9,999 trade is *not* below `largeTradeMin = 5000`, so `detectLargeTrade`
emits a LARGE_TRADE anomaly (severity MEDIUM) — refuting the claim that no
LARGE_TRADE is emitted for $9,999. -/
theorem C2_counterexample :
    (detectLargeTrade DEFAULT_CONFIG BaselineCalculator.empty
      (c2trade 9999 600000) market0).map (fun a => a.severity) =
      some AnomalySeverity.MEDIUM := by
  decide

unseal Rat.add Rat.mul Rat.inv Rat.sub in
/-- C2, amended: with no baseline and the default configuration,
`detectLargeTrade` emits CRITICAL at $25,001 and HIGH at $10,000 as claimed,
but at $9,999 (which is above `largeTradeMin = 5000`) it emits a LARGE_TRADE
of severity MEDIUM; only trades below $5,000 produce no LARGE_TRADE. -/
theorem C2_large_trade_ladder :
    ((detectLargeTrade DEFAULT_CONFIG BaselineCalculator.empty
      (c2trade 25001 0) market0).map (fun a => a.severity) =
      some AnomalySeverity.CRITICAL) ∧
    ((detectLargeTrade DEFAULT_CONFIG BaselineCalculator.empty
      (c2trade 9999 600000) market0).map (fun a => a.severity) =
      some AnomalySeverity.MEDIUM) ∧
    ((detectLargeTrade DEFAULT_CONFIG BaselineCalculator.empty
      (c2trade 10000 1200000) market0).map (fun a => a.severity) =
      some AnomalySeverity.HIGH) ∧
    (detectLargeTrade DEFAULT_CONFIG BaselineCalculator.empty
      (c2trade 4999 1800000) market0 = none) := by
  refine ⟨by decide, by decide, by decide, by decide⟩

/-- Configuration for the C4 counterexample: defaults with
`minSeverity = CRITICAL` (the CLI flag `--min-severity` allows this). -/
def c4cfg : DetectionConfig :=
  { DEFAULT_CONFIG with minSeverity := AnomalySeverity.CRITICAL }

/-- The C4 trade: a $5,000 BUY at price 0.5 — exactly `largeTradeMin`, so a
MEDIUM LARGE_TRADE anomaly fires. -/
def c4trade : SmartMoneyTrade :=
  { marketId := "m", conditionId := "c", tokenId := "tok", price := 1/2
    size := 10000, sizeUsd := 5000, side := Side.BUY, timestamp := 0 }

/-- Trade store after the orchestrator stored the C4 trade (as
`handleTradeEvent` does before `checkAnomalies`). -/
def c4store : TradeStore :=
  (TradeStore.mk0 c4cfg.baselineWindowMs).addTrade 0 c4trade

/-- Result of `checkAnomalies` on the C4 scenario. -/
def c4result : MarketStatsManager × BaselineCalculator × List Anomaly :=
  checkAnomalies c4cfg DEFAULT_PERCENTILE_CONFIG MarketStatsManager.empty
    BaselineCalculator.empty 0 c4trade market0 c4store

unseal Rat.add Rat.mul Rat.inv Rat.sub in
/-- C4 counterexample: with `minSeverity = CRITICAL`, the engine returns one
MEDIUM anomaly (so at least one anomaly fired), yet the orchestrator still
updates the baseline (a baseline for "m" appears where none existed) — the
baseline is left unchanged only when an anomaly *meeting minSeverity* fired,
not whenever any anomaly fired. -/
theorem C4_counterexample :
    c4result.2.2.length = 1 ∧
    c4result.2.2.map (fun a => a.severity) = [AnomalySeverity.MEDIUM] ∧
    (c4result.2.1.getBaseline "m").isSome = true ∧
    (BaselineCalculator.empty.getBaseline "m").isSome = false := by
  refine ⟨by decide, by decide, by decide, by decide⟩

/-- C4, amended: the orchestrator updates the baseline if and only if *no
anomaly meeting `minSeverity`* fired for the trade; anomalies below
`minSeverity` are skipped by the loop before `hasAnomaly` is set and do not
block the update. -/
theorem C4_baseline_update_iff (cfg : DetectionConfig)
    (pcfg : PercentileConfig) (stats : MarketStatsManager)
    (bc : BaselineCalculator) (now : ℚ) (trade : SmartMoneyTrade)
    (market : MarketInfo) (store : TradeStore) :
    (checkAnomalies cfg pcfg stats bc now trade market store).2.1 =
      (if ((checkAllAnomalies cfg pcfg bc stats now trade market store).2.any
          (meetsMinSeverity cfg)) then bc
       else bc.updateBaseline cfg now trade.marketId [trade]) := by
  rw [checkAnomalies]
  rcases h : checkAllAnomalies cfg pcfg bc stats now trade market store with
    ⟨stats', anomalies⟩
  simp only
  rw [foldl_if_or_eq_any (meetsMinSeverity cfg) anomalies false]
  simp

/-- Membership in a market's window after `cleanupMarket`: exactly the
previously stored trades that are at most `windowSize` old. -/
theorem tradesFor_cleanupMarket (store : TradeStore) (now : ℚ) (m : String)
    (t : SmartMoneyTrade) :
    t ∈ (store.cleanupMarket now m).tradesFor m ↔
      t ∈ store.tradesFor m ∧ now - t.timestamp ≤ store.windowSizeMs := by
  rw [TradeStore.cleanupMarket]
  cases h : store.windows.lookup m with
  | none =>
      simp only [TradeStore.tradesFor, h]
      simp
  | some w =>
      simp only [TradeStore.tradesFor, h]
      show t ∈ (((alUpdate m _ store.windows).lookup m).getD
        { trades := [], priceHistory := [] }).trades ↔ _
      rw [lookup_alUpdate_self]
      simp only [Option.getD_some, h, List.mem_filter]
      constructor
      · rintro ⟨h1, h2⟩
        refine ⟨h1, ?_⟩
        have h3 : now - store.windowSizeMs ≤ t.timestamp := by simpa using h2
        linarith
      · rintro ⟨h1, h2⟩
        refine ⟨h1, ?_⟩
        simp only [decide_eq_true_eq]
        linarith

/-- The window contents after `addTrade`: the trade is appended, and when the
new count is a multiple of 100 the cleanup filter runs over the result. -/
theorem tradesFor_addTrade (store : TradeStore) (now : ℚ)
    (tr : SmartMoneyTrade) :
    (store.addTrade now tr).tradesFor tr.marketId =
      (if (store.tradesFor tr.marketId ++ [tr]).length % 100 = 0 then
        (store.tradesFor tr.marketId ++ [tr]).filter
          (fun u => now - store.windowSizeMs ≤ u.timestamp)
       else store.tradesFor tr.marketId ++ [tr]) := by
  rw [TradeStore.addTrade]
  have hlook :
      ((alUpdate tr.marketId
        (fun w? =>
          let w := w?.getD { trades := [], priceHistory := [] }
          { trades := w.trades ++ [tr]
            priceHistory :=
              w.priceHistory ++
                [{ price := tr.price, timestamp := tr.timestamp }] })
        store.windows).lookup tr.marketId) =
      some
        (let w := (store.windows.lookup tr.marketId).getD
          { trades := [], priceHistory := [] }
         { trades := w.trades ++ [tr]
           priceHistory :=
             w.priceHistory ++
               [{ price := tr.price, timestamp := tr.timestamp }] }) :=
    lookup_alUpdate_self _ _ _
  simp only [hlook]
  by_cases hmod : ((store.tradesFor tr.marketId ++ [tr]).length) % 100 = 0
  · rw [if_pos (by simpa [TradeStore.tradesFor] using hmod), if_pos hmod]
    rw [TradeStore.cleanupMarket]
    simp only [hlook]
    show ((((alUpdate tr.marketId _ (alUpdate tr.marketId _ store.windows))).lookup
      tr.marketId).getD { trades := [], priceHistory := [] }).trades = _
    rw [lookup_alUpdate_self]
    simp only [hlook, TradeStore.tradesFor]
    rfl
  · rw [if_neg (by simpa [TradeStore.tradesFor] using hmod), if_neg hmod]
    show (((alUpdate tr.marketId _ store.windows).lookup
      tr.marketId).getD { trades := [], priceHistory := [] }).trades = _
    rw [hlook]
    simp [TradeStore.tradesFor]

/-- For the C7 counterexample: a trade at time 0. -/
def c7t1 : SmartMoneyTrade :=
  { marketId := "m", conditionId := "c", tokenId := "tok", price := 1/2
    size := 2, sizeUsd := 1, side := Side.BUY, timestamp := 0 }

/-- For the C7 counterexample: a trade at time 200. -/
def c7t2 : SmartMoneyTrade :=
  { marketId := "m", conditionId := "c", tokenId := "tok", price := 1/2
    size := 2, sizeUsd := 1, side := Side.BUY, timestamp := 200 }

/-- A store with `windowSize = 100` after adding the two trades at their own
timestamps. -/
def c7store : TradeStore :=
  ((TradeStore.mk0 100).addTrade 0 c7t1).addTrade 200 c7t2

unseal Rat.add Rat.mul Rat.inv Rat.sub in
/-- C7 counterexample: `addTrade` cleans up only every 100th trade, so after
adding a second trade at `now = 200` the first trade (age 200 > windowSize
100) is still stored — refuting "no trade older than windowSize remains
stored after any sequence of addTrade calls". -/
theorem C7_counterexample :
    c7t1 ∈ c7store.tradesFor "m" ∧
    c7store.windowSizeMs < 200 - c7t1.timestamp := by
  refine ⟨by decide, by decide⟩

/-- C7, amended: the window-membership invariant holds at cleanup points, not
continuously: after `cleanupMarket` at time `now`, a trade is stored iff it
was stored and `now − t.timestamp ≤ windowSize`; and `addTrade` never evicts
a trade that is within the window (it appends, and runs the cleanup filter
only when the trade count is a multiple of 100).  Between cleanups, trades
older than `windowSize` may remain (see the counterexample). -/
theorem C7_window_after_cleanup (store : TradeStore) (now : ℚ) (m : String)
    (tr t : SmartMoneyTrade) :
    (t ∈ (store.cleanupMarket now m).tradesFor m ↔
      t ∈ store.tradesFor m ∧ now - t.timestamp ≤ store.windowSizeMs) ∧
    (t ∈ store.tradesFor tr.marketId → now - t.timestamp ≤ store.windowSizeMs →
      t ∈ (store.addTrade now tr).tradesFor tr.marketId) := by
  refine ⟨tradesFor_cleanupMarket store now m t, ?_⟩
  intro hmem hfresh
  rw [tradesFor_addTrade]
  by_cases hmod : ((store.tradesFor tr.marketId ++ [tr]).length) % 100 = 0
  · rw [if_pos hmod]
    rw [List.mem_filter]
    refine ⟨List.mem_append_left _ hmem, ?_⟩
    simp only [decide_eq_true_eq]
    linarith
  · rw [if_neg hmod]
    exact List.mem_append_left _ hmem

unseal Rat.add Rat.mul Rat.inv Rat.sub in
/-- Witness for the amended C7 theorem at a concrete input: applying the
cleanup clause at time 200 keeps the fresh trade, and the theorem's
membership criterion is checked on the stale trade. -/
theorem C7_witness :
    c7t2 ∈ (c7store.cleanupMarket 200 "m").tradesFor "m" ∧
    c7t1 ∉ (c7store.cleanupMarket 200 "m").tradesFor "m" := by
  constructor
  · exact (C7_window_after_cleanup c7store 200 "m" c7t2 c7t2).1.mpr
      ⟨by decide, by decide⟩
  · intro hmem
    have h := (C7_window_after_cleanup c7store 200 "m" c7t2 c7t1).1.mp hmem
    have : (200:ℚ) - c7t1.timestamp ≤ c7store.windowSizeMs := h.2
    revert this
    decide

/-- Canonical pair ids are symmetric (`[id1, id2].sort().join('-')`). -/
theorem canonicalPairId_comm (a b : String) :
    canonicalPairId a b = canonicalPairId b a := by
  rw [canonicalPairId, canonicalPairId]
  rcases le_total a b with h | h
  · rw [if_pos h]
    by_cases h2 : b ≤ a
    · have hab : a = b := le_antisymm h h2
      subst hab
      simp
    · rw [if_neg h2]
  · by_cases h2 : a ≤ b
    · have hab : a = b := le_antisymm h2 h
      subst hab
      simp
    · rw [if_neg h2, if_pos h]

/-- C9: the analyzed-pair cache is symmetric.  After
`savePairResult(id1, id2, r, c)`, `isPairAnalyzed` is true in both argument
orders and `getPairResult` agrees in both orders — both go through the
canonical (sorted) pair id. -/
theorem C9_pair_cache_symmetric (s : OppState) (now : ℚ) (id1 id2 : String)
    (result : RelationshipType) (confidence : ℚ) :
    ((s.savePairResult now id1 id2 result confidence).isPairAnalyzed id1 id2
      = true) ∧
    ((s.savePairResult now id1 id2 result confidence).isPairAnalyzed id2 id1
      = true) ∧
    ((s.savePairResult now id1 id2 result confidence).getPairResult id1 id2 =
      (s.savePairResult now id1 id2 result confidence).getPairResult id2 id1) := by
  refine ⟨?_, ?_, ?_⟩
  · rw [OppState.isPairAnalyzed, OppState.savePairResult]
    show ((alUpdate (canonicalPairId id1 id2) _ s.analyzedPairs).lookup
      (canonicalPairId id1 id2)).isSome = true
    rw [lookup_alUpdate_self]
    rfl
  · rw [OppState.isPairAnalyzed, OppState.savePairResult]
    show ((alUpdate (canonicalPairId id1 id2) _ s.analyzedPairs).lookup
      (canonicalPairId id2 id1)).isSome = true
    rw [canonicalPairId_comm id2 id1, lookup_alUpdate_self]
    rfl
  · rw [OppState.getPairResult, OppState.getPairResult,
      canonicalPairId_comm id2 id1]

/-- Leader market for the C5 counterexample. -/
def c5mA : SingleMarket := { id := "A", question := "qa", endTime := 1000 }

/-- Follower market for the C5 counterexample. -/
def c5mB : SingleMarket := { id := "B", question := "qb", endTime := 2000 }

/-- The tracked relation for the C5 counterexample. -/
def c5rel : MarketRelation :=
  { market1 := c5mA, market2 := c5mB
    relationshipType := RelationshipType.SAME_OUTCOME
    confidenceScore := 1, leaderId := some "A", followerId := some "B"
    seriesId := none }

/-- State after registering the opportunity. -/
def c5s1 : OppState := OppState.empty.addOpportunity 0 c5rel

/-- State after the leader resolves. -/
def c5s2 : OppState := c5s1.markLeaderResolved 1 "A-B" Outcome.YES

/-- State after `markThresholdTriggered` is applied to the already-resolved
opportunity (as the monitor's series cascade can do: `cascadeThresholdAlert`
filters siblings only on `thresholdTriggered`, not on `status`). -/
def c5s3 : OppState := c5s2.markThresholdTriggered 2 "A-B" (92/100)

unseal Rat.add Rat.mul Rat.inv Rat.sub in
/-- C5 counterexample: `markThresholdTriggered` on a resolved opportunity
overwrites `status` back to `threshold_triggered` — a backward transition,
refuting the claim that no operation moves a resolved opportunity back. -/
theorem C5_counterexample :
    (c5s2.opportunities.map (fun o => o.status) = [OppStatus.resolved]) ∧
    (c5s3.opportunities.map (fun o => o.status) =
      [OppStatus.threshold_triggered]) ∧
    statusRank OppStatus.threshold_triggered < statusRank OppStatus.resolved := by
  refine ⟨by decide, by decide, by decide⟩

/-- C5, amended: `addOpportunity` and `markLeaderResolved` never move any
opportunity's status backward, and `markThresholdTriggered` moves every
*non-resolved* opportunity only forward; but `markThresholdTriggered` sets
`status = threshold_triggered` unconditionally, so on a resolved opportunity
(reachable through the monitor's cascade, which filters siblings only on
`thresholdTriggered`) it moves the status backward (see the
counterexample). -/
theorem C5_lifecycle_forward (s : OppState) (now : ℚ) (id : String)
    (price : ℚ) (outcome : Outcome) (r : MarketRelation) :
    List.Forall₂ (fun a b => statusRank a.status ≤ statusRank b.status)
      s.opportunities (s.markLeaderResolved now id outcome).opportunities ∧
    List.Forall₂ (fun a b =>
        a.status ≠ OppStatus.resolved →
          statusRank a.status ≤ statusRank b.status)
      s.opportunities (s.markThresholdTriggered now id price).opportunities ∧
    (∃ added, (s.addOpportunity now r).opportunities =
      s.opportunities ++ added) := by
  refine ⟨?_, ?_, ?_⟩
  · rw [OppState.markLeaderResolved]
    apply forall₂_updateFirst
    · intro x _
      show statusRank x.status ≤ statusRank OppStatus.resolved
      cases x.status <;> simp [statusRank]
    · intro x _
      exact le_refl _
  · rw [OppState.markThresholdTriggered]
    apply forall₂_updateFirst
    · intro x _ hne
      show statusRank x.status ≤ statusRank OppStatus.threshold_triggered
      cases hx : x.status
      · simp [statusRank]
      · simp [statusRank]
      · exact absurd hx hne
    · intro x _ _
      exact le_refl _
  · rw [OppState.addOpportunity]
    by_cases h : s.opportunities.any
      (fun opp => opp.id = r.market1.id ++ "-" ++ r.market2.id)
    · rw [if_pos h]
      exact ⟨[], (List.append_nil _).symm⟩
    · rw [if_neg h]
      exact ⟨_, rfl⟩

/-- Per-call accounting for `sendAnomalyAlert`: the counter stays within the
cap, and an accepted call consumes one unit of the current budget — a new
budget opening exactly when the counter reset fired during the call. -/
theorem sendAnomalyAlert_budget (cfg : DetectionConfig) (st : AlertManagerState)
    (now : ℚ) (mid : String) (ty : AnomalyType) (ok : Bool)
    (hst : st.alertCount ≤ cfg.maxAlertsPerHour) :
    (sendAnomalyAlert cfg st now mid ty ok).1.alertCount ≤
      cfg.maxAlertsPerHour ∧
    (if (sendAnomalyAlert cfg st now mid ty ok).2 then 1 else 0) +
        st.alertCount ≤
      (sendAnomalyAlert cfg st now mid ty ok).1.alertCount +
        (if (match st.recentAlerts.lookup (mid ++ ":" ++ ty.name) with
          | some lastAlert =>
              !decide (now - lastAlert < cfg.alertCooldownMs) &&
                decide (60 * 60 * 1000 < now - st.alertCountResetTime)
          | none => decide (60 * 60 * 1000 < now - st.alertCountResetTime)) =
            true
         then cfg.maxAlertsPerHour else 0) := by
  cases ok with
  | true =>
      rw [sendAnomalyAlert]
      cases hl : st.recentAlerts.lookup (mid ++ ":" ++ ty.name) with
      | some lastAlert =>
          by_cases hcd : now - lastAlert < cfg.alertCooldownMs <;>
            by_cases hhr : 60 * 60 * 1000 < now - st.alertCountResetTime <;>
            by_cases hcap0 : cfg.maxAlertsPerHour ≤ 0 <;>
            by_cases hcapC : cfg.maxAlertsPerHour ≤ st.alertCount <;>
            (refine ⟨?_, ?_⟩ <;>
              (simp [resetAlertCountIfNeeded, hl, hcd, hhr, hcap0, hcapC]
               <;> omega))
      | none =>
          by_cases hhr : 60 * 60 * 1000 < now - st.alertCountResetTime <;>
            by_cases hcap0 : cfg.maxAlertsPerHour ≤ 0 <;>
            by_cases hcapC : cfg.maxAlertsPerHour ≤ st.alertCount <;>
            (refine ⟨?_, ?_⟩ <;>
              (simp [resetAlertCountIfNeeded, hl, hhr, hcap0, hcapC]
               <;> omega))
  | false =>
      rw [sendAnomalyAlert]
      cases hl : st.recentAlerts.lookup (mid ++ ":" ++ ty.name) with
      | some lastAlert =>
          by_cases hcd : now - lastAlert < cfg.alertCooldownMs <;>
            by_cases hhr : 60 * 60 * 1000 < now - st.alertCountResetTime <;>
            by_cases hcap0 : cfg.maxAlertsPerHour ≤ 0 <;>
            by_cases hcapC : cfg.maxAlertsPerHour ≤ st.alertCount <;>
            (refine ⟨?_, ?_⟩ <;>
              (simp [resetAlertCountIfNeeded, hl, hcd, hhr, hcap0, hcapC]
               <;> omega))
      | none =>
          by_cases hhr : 60 * 60 * 1000 < now - st.alertCountResetTime <;>
            by_cases hcap0 : cfg.maxAlertsPerHour ≤ 0 <;>
            by_cases hcapC : cfg.maxAlertsPerHour ≤ st.alertCount <;>
            (refine ⟨?_, ?_⟩ <;>
              (simp [resetAlertCountIfNeeded, hl, hhr, hcap0, hcapC]
               <;> omega))

/-- The accepted/reset accounting over a whole trace: the number of accepted
alerts plus the current counter never exceeds (resets + 1) rate-limit
budgets. -/
theorem runAlerts_bound_aux (cfg : DetectionConfig) (events : List AlertEvent) :
    ∀ st : AlertManagerState, st.alertCount ≤ cfg.maxAlertsPerHour →
      ((runAlerts cfg st events).2.1).length + st.alertCount ≤
        cfg.maxAlertsPerHour * ((runAlerts cfg st events).2.2) +
          cfg.maxAlertsPerHour := by
  induction events with
  | nil =>
      intro st hst
      simpa [runAlerts] using hst
  | cons e es ih =>
      intro st hst
      rw [runAlerts]
      rcases hsend : sendAnomalyAlert cfg st e.now e.marketId e.type
        e.deliveryOk with ⟨st2, acc⟩
      have hbudget := sendAnomalyAlert_budget cfg st e.now e.marketId e.type
        e.deliveryOk hst
      rw [hsend] at hbudget
      obtain ⟨hb1, hb2⟩ := hbudget
      rcases hrec : runAlerts cfg st2 es with ⟨stFin, times, resets⟩
      have hih := ih st2 hb1
      rw [hrec] at hih
      simp only at hih
      simp only [hsend, hrec]
      cases hdr : (match st.recentAlerts.lookup
          (e.marketId ++ ":" ++ e.type.name) with
        | some lastAlert =>
            !decide (e.now - lastAlert < cfg.alertCooldownMs) &&
              decide (60 * 60 * 1000 < e.now - st.alertCountResetTime)
        | none =>
            decide (60 * 60 * 1000 < e.now - st.alertCountResetTime)) with
      | true =>
          (try rw [hdr] at hb2)
          (try simp only [hdr])
          have hmul : cfg.maxAlertsPerHour * (1 + resets) =
              cfg.maxAlertsPerHour * resets + cfg.maxAlertsPerHour := by
            ring
          cases acc with
          | true =>
              (try simp at hb2 ⊢)
              all_goals omega
          | false =>
              (try simp at hb2 ⊢)
              all_goals omega
      | false =>
          (try rw [hdr] at hb2)
          cases acc with
          | true =>
              (try simp at hb2 ⊢)
              all_goals omega
          | false =>
              (try simp at hb2 ⊢)
              all_goals omega

/-- C3, amended: over any sequence of `sendAnomalyAlert` calls from a freshly
constructed manager, the number of accepted alerts is at most
`maxAlertsPerHour × (number of counter resets + 1)`.  The counter resets only
when more than one hour has elapsed since the previous reset, so the cap is
enforced per fixed reset period — not per rolling hour: a rolling 1-hour
window can contain up to two budgets of accepted alerts (see the
counterexample). -/
theorem C3_accepted_bound (cfg : DetectionConfig) (t0 : ℚ)
    (events : List AlertEvent) :
    ((runAlerts cfg (AlertManagerState.init t0) events).2.1).length ≤
      cfg.maxAlertsPerHour *
        ((runAlerts cfg (AlertManagerState.init t0) events).2.2 + 1) := by
  have h := runAlerts_bound_aux cfg events (AlertManagerState.init t0)
    (Nat.zero_le _)
  have hmul : cfg.maxAlertsPerHour *
      ((runAlerts cfg (AlertManagerState.init t0) events).2.2 + 1) =
      cfg.maxAlertsPerHour *
        ((runAlerts cfg (AlertManagerState.init t0) events).2.2) +
        cfg.maxAlertsPerHour := by
    ring
  rw [hmul]
  simpa [AlertManagerState.init] using h

/-- The C3 counterexample trace: 20 distinct-market alerts at `t = 3,599,000`
(just inside the first fixed hour) and 20 more at `t = 3,600,001` (just after
the counter reset fires), all delivered. -/
def c3events : List AlertEvent :=
  ((List.range 20).map (fun i =>
    { now := 3599000, marketId := toString i
      type := AnomalyType.LARGE_TRADE, deliveryOk := true })) ++
  ((List.range 20).map (fun i =>
    { now := 3600001, marketId := toString (20 + i)
      type := AnomalyType.LARGE_TRADE, deliveryOk := true }))

unseal Rat.add Rat.mul Rat.inv Rat.sub in
/-- C3 counterexample: all 40 alerts of the trace are accepted, and all 40
send times lie in the rolling 1-hour window `[3,599,000, 3,599,000 + 1h]` —
twice `maxAlertsPerHour = 20` — refuting the rolling-window cap. -/
theorem C3_counterexample :
    (((runAlerts DEFAULT_CONFIG (AlertManagerState.init 0) c3events).2.1).filter
      (fun t => decide ((3599000:ℚ) ≤ t) &&
        decide (t ≤ 3599000 + 60 * 60 * 1000))).length = 40 ∧
    DEFAULT_CONFIG.maxAlertsPerHour < 40 := by
  refine ⟨by decide, by decide⟩

/-- The SELL trade for the C6 counterexample (a low price, so it would be
tracked if recorded). -/
def c6sell : SmartMoneyTrade :=
  { marketId := "m", conditionId := "c", tokenId := "tok", price := 1/10
    size := 500, sizeUsd := 50, side := Side.SELL, timestamp := 0 }

unseal Rat.add Rat.mul Rat.inv Rat.sub in
/-- C6 counterexample: `detectUnusualLowPriceBuy` returns before recording
when `side ≠ BUY`, so a SELL trade leaves the Percentile Tracker's state
completely unchanged (its buffer stays empty) — refuting "records the trade
into the Percentile Tracker's state for every trade of any side". -/
theorem C6_counterexample :
    ((detectUnusualLowPriceBuy DEFAULT_PERCENTILE_CONFIG
      MarketStatsManager.empty c6sell market0).1.getMarket "m").trades = [] ∧
    (detectUnusualLowPriceBuy DEFAULT_PERCENTILE_CONFIG
      MarketStatsManager.empty c6sell market0).1 = MarketStatsManager.empty := by
  refine ⟨by decide, by decide⟩

/-- C6, amended: the detector records every *BUY* trade into the tracker,
whether or not an anomaly is emitted (the state effect does not depend on the
anomaly output), while SELL trades are dropped before recording; hence for
every trade sequence, the tracker's buffer for market `m` holds exactly the
last `maxSamples` BUY trades seen for `m`, and the sorted multiset holds
exactly the USD sizes of those among them with `price < lowPriceThreshold`. -/
theorem C6_tracker_invariant (pcfg : PercentileConfig)
    (mkt : String → MarketInfo) (trs : List SmartMoneyTrade) (m : String) :
    ((runULPB pcfg mkt MarketStatsManager.empty trs).getMarket m).trades =
      (((trs.filter (fun t => t.side = Side.BUY && t.marketId = m)).map
        toRecord).drop
        (((trs.filter (fun t => t.side = Side.BUY && t.marketId = m)).map
          toRecord).length - pcfg.maxSamples)) ∧
    ((runULPB pcfg mkt MarketStatsManager.empty trs).getMarket
      m).lowPriceBuys.Sorted (· ≤ ·) ∧
    List.Perm
      ((runULPB pcfg mkt MarketStatsManager.empty trs).getMarket m).lowPriceBuys
      ((((runULPB pcfg mkt MarketStatsManager.empty trs).getMarket
        m).trades.filter (isLowPriceBuy pcfg)).map (fun t => t.sizeUsd)) := by
  have hrun := getMarket_runULPB pcfg mkt trs MarketStatsManager.empty m
  have hempty : MarketStatsManager.empty.getMarket m = MarketStats.empty := rfl
  rw [hempty] at hrun
  have hinv := statsInvariant_foldl pcfg
    ((trs.filter (fun t => t.side = Side.BUY && t.marketId = m)).map toRecord)
  rw [← hrun] at hinv
  exact hinv

/-- In a list containing `v`, fewer than `length` elements are strictly
below `v`. -/
theorem countP_lt_le_sub_one (l : List ℚ) (v : ℚ) (hv : v ∈ l) :
    l.countP (fun b => decide (b < v)) ≤ l.length - 1 := by
  have hsplit := List.length_eq_countP_add_countP (fun b => decide (b < v)) l
  (try beta_reduce at hsplit)
  have hpos : 0 < l.countP (fun a => decide ¬ decide (a < v) = true) := by
    apply List.countP_pos_iff.mpr
    refine ⟨v, hv, ?_⟩
    simp
  omega

/-- C8: on a sorted multiset, `getPercentile` returns
`percentile = (#strictly-smaller) / n`, `rank = n − #strictly-smaller`, the
severity ladder CRITICAL/HIGH/MEDIUM at thresholds 0.99/0.95/0.90 (the
default `criticalPercentile`/`highPercentile`/`mediumPercentile`), and the
all-zero NONE result whenever `n < minSamples = 50`. -/
theorem C8_getPercentile_spec (st : MarketStats) (size : ℚ)
    (hs : st.lowPriceBuys.Sorted (· ≤ ·)) :
    (st.lowPriceBuys.length < 50 →
      st.getPercentile DEFAULT_PERCENTILE_CONFIG size =
        { percentile := 0, isUnusual := false, severity := PercSeverity.NONE
          rank := 0, totalTrades := st.lowPriceBuys.length, medianSize := 0
          p90 := 0, p95 := 0, p99 := 0 }) ∧
    (50 ≤ st.lowPriceBuys.length →
      (st.getPercentile DEFAULT_PERCENTILE_CONFIG size).percentile =
        ((st.lowPriceBuys.countP (fun b => decide (b < size)) : ℚ) /
          (st.lowPriceBuys.length : ℚ)) ∧
      (st.getPercentile DEFAULT_PERCENTILE_CONFIG size).rank =
        st.lowPriceBuys.length -
          st.lowPriceBuys.countP (fun b => decide (b < size)) ∧
      (st.getPercentile DEFAULT_PERCENTILE_CONFIG size).severity =
        (if (99:ℚ)/100 ≤
            ((st.lowPriceBuys.countP (fun b => decide (b < size)) : ℚ) /
              (st.lowPriceBuys.length : ℚ)) then PercSeverity.CRITICAL
         else if (95:ℚ)/100 ≤
            ((st.lowPriceBuys.countP (fun b => decide (b < size)) : ℚ) /
              (st.lowPriceBuys.length : ℚ)) then PercSeverity.HIGH
         else if (9:ℚ)/10 ≤
            ((st.lowPriceBuys.countP (fun b => decide (b < size)) : ℚ) /
              (st.lowPriceBuys.length : ℚ)) then PercSeverity.MEDIUM
         else PercSeverity.NONE)) := by
  have hcs := countSmaller_eq st.lowPriceBuys size hs
  constructor
  · intro h
    rw [MarketStats.getPercentile]
    rw [if_pos (show st.lowPriceBuys.length <
      DEFAULT_PERCENTILE_CONFIG.minSamples from h)]
  · intro h
    rw [MarketStats.getPercentile]
    rw [if_neg (show ¬ st.lowPriceBuys.length <
      DEFAULT_PERCENTILE_CONFIG.minSamples from not_lt.mpr h)]
    simp only [hcs]
    exact ⟨trivial, trivial, rfl⟩

/-- Concrete tracker state for the C8 witness: fifty tracked sizes of $1. -/
def c8st : MarketStats :=
  { trades := [], lowPriceBuys := List.replicate 50 1 }

unseal Rat.add Rat.mul Rat.inv Rat.sub in
/-- The C8 theorem applied at a concrete input: fifty $1 entries, probe $2 —
percentile 50/50 = 1, rank 0, severity CRITICAL. -/
theorem C8_getPercentile_spec_witness :
    (c8st.getPercentile DEFAULT_PERCENTILE_CONFIG 2).percentile = 1 ∧
    (c8st.getPercentile DEFAULT_PERCENTILE_CONFIG 2).rank = 0 ∧
    (c8st.getPercentile DEFAULT_PERCENTILE_CONFIG 2).severity =
      PercSeverity.CRITICAL := by
  have hsorted : c8st.lowPriceBuys.Sorted (· ≤ ·) :=
    List.pairwise_replicate.mpr (Or.inr (le_refl (1:ℚ)))
  have h := (C8_getPercentile_spec c8st 2 hsorted).2 (by decide)
  obtain ⟨hp, hr, hsev⟩ := h
  refine ⟨?_, ?_, ?_⟩
  · rw [hp]
    decide
  · rw [hr]
    decide
  · rw [hsev]
    decide

/-- Division by a positive number preserves the order of numerators. -/
theorem div_le_div_of_num_le {a b c : ℚ} (hab : a ≤ b) (hc : 0 < c) :
    a / c ≤ b / c :=
  div_le_div_of_le_of_nonneg hab hc.le

/-- Querying `getPercentile` at a value that is itself in the sorted multiset
(with enough samples): the queried value is counted in the total, so the
percentile is at most `(n−1)/n`, and a CRITICAL verdict forces `n ≥ 100`. -/
theorem getPercentile_self_bound (st : MarketStats) (v : ℚ)
    (hs : st.lowPriceBuys.Sorted (· ≤ ·)) (hv : v ∈ st.lowPriceBuys)
    (hn : 50 ≤ st.lowPriceBuys.length) :
    (st.getPercentile DEFAULT_PERCENTILE_CONFIG v).totalTrades =
      st.lowPriceBuys.length ∧
    (st.getPercentile DEFAULT_PERCENTILE_CONFIG v).percentile ≤
      ((st.lowPriceBuys.length : ℚ) - 1) / (st.lowPriceBuys.length : ℚ) ∧
    ((st.getPercentile DEFAULT_PERCENTILE_CONFIG v).severity =
      PercSeverity.CRITICAL → 100 ≤ st.lowPriceBuys.length) := by
  have hcs := countSmaller_eq st.lowPriceBuys v hs
  have hcb := countP_lt_le_sub_one st.lowPriceBuys v hv
  have h1n : 1 ≤ st.lowPriceBuys.length := by omega
  have hnpos : (0:ℚ) < (st.lowPriceBuys.length : ℚ) := by
    exact_mod_cast h1n
  have hcast : (st.lowPriceBuys.countP (fun b => decide (b < v)) : ℚ) ≤
      (st.lowPriceBuys.length : ℚ) - 1 := by
    have h2 : (st.lowPriceBuys.countP (fun b => decide (b < v)) : ℚ) ≤
        ((st.lowPriceBuys.length - 1 : ℕ) : ℚ) := by
      exact_mod_cast hcb
    rwa [Nat.cast_sub h1n, Nat.cast_one] at h2
  rw [MarketStats.getPercentile]
  rw [if_neg (show ¬ st.lowPriceBuys.length <
    DEFAULT_PERCENTILE_CONFIG.minSamples from not_lt.mpr hn)]
  simp only [hcs]
  refine ⟨trivial, ?_, ?_⟩
  · show (st.lowPriceBuys.countP (fun b => decide (b < v)) : ℚ) /
      (st.lowPriceBuys.length : ℚ) ≤ _
    exact div_le_div_of_num_le hcast hnpos
  · show (if (99:ℚ)/100 ≤
        ((st.lowPriceBuys.countP (fun b => decide (b < v)) : ℚ) /
          (st.lowPriceBuys.length : ℚ)) then PercSeverity.CRITICAL
      else if (95:ℚ)/100 ≤ _ then PercSeverity.HIGH
      else if (9:ℚ)/10 ≤ _ then PercSeverity.MEDIUM
      else PercSeverity.NONE) = PercSeverity.CRITICAL →
      100 ≤ st.lowPriceBuys.length
    intro hcrit
    by_contra h100
    push_neg at h100
    have hq : (st.lowPriceBuys.countP (fun b => decide (b < v)) : ℚ) /
        (st.lowPriceBuys.length : ℚ) < 99/100 := by
      rw [div_lt_div_iff hnpos (by norm_num)]
      exact_mod_cast (show st.lowPriceBuys.countP (fun b => decide (b < v)) * 100 <
        99 * st.lowPriceBuys.length by omega)
    rw [if_neg (not_le.mpr hq)] at hcrit
    revert hcrit
    split
    · intro hcrit
      exact absurd hcrit (by decide)
    · split
      · intro hcrit
        exact absurd hcrit (by decide)
      · intro hcrit
        exact absurd hcrit (by decide)

/-- The `isUnusual` flag of a percentile result is exactly "severity is not
NONE". -/
theorem getPercentile_isUnusual (cfg : PercentileConfig) (st : MarketStats)
    (v : ℚ) :
    (st.getPercentile cfg v).isUnusual =
      decide ((st.getPercentile cfg v).severity ≠ PercSeverity.NONE) := by
  rw [MarketStats.getPercentile]
  split
  · rfl
  · rfl

/-- C10: `detectUnusualLowPriceBuy` records the triggering trade into the
sorted multiset *before* querying, so the queried trade is counted in the
reported total `n`: every emitted UNUSUAL_LOW_PRICE_BUY anomaly has
`percentile ≤ (n−1)/n` with `n ≥ minSamples = 50`, and a CRITICAL severity is
only reachable once the multiset holds `n ≥ 100` low-price buys (the
hypotheses are the tracker's reachability invariants: sortedness and the
multiset correspondence with the buffer). -/
theorem C10_critical_needs_100 (stats : MarketStatsManager)
    (tr : SmartMoneyTrade) (market : MarketInfo)
    (hsort : (stats.getMarket tr.marketId).lowPriceBuys.Sorted (· ≤ ·))
    (hperm : List.Perm (stats.getMarket tr.marketId).lowPriceBuys
      (((stats.getMarket tr.marketId).trades.filter
        (isLowPriceBuy DEFAULT_PERCENTILE_CONFIG)).map (fun t => t.sizeUsd))) :
    ∀ a, (detectUnusualLowPriceBuy DEFAULT_PERCENTILE_CONFIG stats tr
        market).2 = some a →
      ∃ p n, a.details.percentile = some p ∧ a.details.totalTrades = some n ∧
        50 ≤ n ∧ p ≤ ((n:ℚ) - 1) / (n:ℚ) ∧
        (a.severity = AnomalySeverity.CRITICAL → 100 ≤ n) := by
  intro a ha
  rw [detectUnusualLowPriceBuy] at ha
  by_cases hside : tr.side = Side.BUY
  case neg =>
      rw [if_pos (by simp [hside])] at ha
      exact absurd ha (by simp)
  rw [if_neg (by simp [hside])] at ha
  set rec0 : TradeRecord :=
    { sizeUsd := tr.sizeUsd, price := tr.price, timestamp := tr.timestamp
      side := tr.side } with hrec0
  set st1 := stats.getMarket tr.marketId with hst1
  have hget : (stats.addTrade DEFAULT_PERCENTILE_CONFIG tr.marketId tr.sizeUsd
      tr.price tr.side tr.timestamp).getMarket tr.marketId =
      st1.addTrade DEFAULT_PERCENTILE_CONFIG rec0 := by
    rw [getMarket_addTrade, if_pos rfl]
  set st2 := st1.addTrade DEFAULT_PERCENTILE_CONFIG rec0 with hst2
  have hchk : (stats.addTrade DEFAULT_PERCENTILE_CONFIG tr.marketId tr.sizeUsd
      tr.price tr.side tr.timestamp).checkTrade DEFAULT_PERCENTILE_CONFIG
      tr.marketId tr.sizeUsd tr.price tr.side =
      st2.shouldAlert DEFAULT_PERCENTILE_CONFIG tr.sizeUsd tr.price tr.side := by
    rw [MarketStatsManager.checkTrade, hget]
  simp only [hchk] at ha
  rw [MarketStats.shouldAlert] at ha
  by_cases hpl : DEFAULT_PERCENTILE_CONFIG.lowPriceThreshold ≤ tr.price
  · rw [if_pos (Or.inr hpl)] at ha
    exact absurd ha (by simp)
  · rw [if_neg (by
      push_neg
      exact ⟨hside, not_le.mp hpl⟩)] at ha
    by_cases hun : (st2.getPercentile DEFAULT_PERCENTILE_CONFIG
        tr.sizeUsd).isUnusual = true
    · rw [if_pos hun] at ha
      -- the reachability invariants after the insert
      have hsp := addTrade_sorted_perm DEFAULT_PERCENTILE_CONFIG st1 rec0
        hsort hperm
      obtain ⟨hsort2, hperm2⟩ := hsp
      have hlowr : isLowPriceBuy DEFAULT_PERCENTILE_CONFIG rec0 = true := by
        rw [isLowPriceBuy, hrec0]
        simp [hside, not_le.mp hpl]
      have hmemtr : rec0 ∈ st2.trades :=
        mem_addTrade_trades DEFAULT_PERCENTILE_CONFIG st1 rec0 (by decide)
      have hmem : tr.sizeUsd ∈ st2.lowPriceBuys := by
        refine (hperm2.mem_iff).mpr ?_
        exact List.mem_map_of_mem (fun t => t.sizeUsd)
          (List.mem_filter.mpr ⟨hmemtr, hlowr⟩)
      have h50 : 50 ≤ st2.lowPriceBuys.length := by
        by_contra h50
        push_neg at h50
        rw [MarketStats.getPercentile] at hun
        rw [if_pos (show st2.lowPriceBuys.length <
          DEFAULT_PERCENTILE_CONFIG.minSamples from h50)] at hun
        simp at hun
      have hbound := getPercentile_self_bound st2 tr.sizeUsd hsort2 hmem h50
      obtain ⟨htot, hple, hcrit⟩ := hbound
      -- the emitted anomaly copies the percentile result's fields
      cases hsev : (st2.getPercentile DEFAULT_PERCENTILE_CONFIG
          tr.sizeUsd).severity with
      | NONE =>
          rw [getPercentile_isUnusual DEFAULT_PERCENTILE_CONFIG st2 tr.sizeUsd, hsev] at hun
          simp at hun
      | MEDIUM =>
          simp only [hsev] at ha
          have haeq := Option.some.inj ha
          refine ⟨(st2.getPercentile DEFAULT_PERCENTILE_CONFIG
            tr.sizeUsd).percentile, st2.lowPriceBuys.length, ?_, ?_, h50,
            ?_, ?_⟩
          · rw [← haeq]
          · rw [← haeq, ← htot]
          · exact hple
          · intro hc
            rw [← haeq] at hc
            simp at hc
      | HIGH =>
          simp only [hsev] at ha
          have haeq := Option.some.inj ha
          refine ⟨(st2.getPercentile DEFAULT_PERCENTILE_CONFIG
            tr.sizeUsd).percentile, st2.lowPriceBuys.length, ?_, ?_, h50,
            ?_, ?_⟩
          · rw [← haeq]
          · rw [← haeq, ← htot]
          · exact hple
          · intro hc
            rw [← haeq] at hc
            simp at hc
      | CRITICAL =>
          simp only [hsev] at ha
          have haeq := Option.some.inj ha
          refine ⟨(st2.getPercentile DEFAULT_PERCENTILE_CONFIG
            tr.sizeUsd).percentile, st2.lowPriceBuys.length, ?_, ?_, h50,
            ?_, ?_⟩
          · rw [← haeq]
          · rw [← haeq, ← htot]
          · exact hple
          · intro _
            exact hcrit hsev
    · rw [if_neg hun] at ha
      exact absurd ha (by simp)

/-- A concrete tracker state holding 99 low-price BUY sizes (all $1 at price
0.10), satisfying the reachability invariants by computation. -/
def c10st : MarketStats where
  trades := List.replicate 99
    { sizeUsd := 1, price := 1/10, timestamp := 0, side := Side.BUY }
  lowPriceBuys := List.replicate 99 (1:ℚ)

/-- The manager owning `c10st` under market id `"m"`. -/
def c10stats : MarketStatsManager where
  markets := [("m", c10st)]

/-- A $1000 BUY at price 0.10: the 100th low-price buy for the market. -/
def c10tr : SmartMoneyTrade where
  marketId := "m"
  conditionId := "c"
  tokenId := "t"
  price := 1/10
  size := 1000
  sizeUsd := 1000
  side := Side.BUY
  timestamp := 0

/-- Market metadata for the `c10tr` query. -/
def c10market : MarketInfo where
  id := "m"
  question := "q"

/-- Placeholder anomaly for `Option.getD` (never used: the detector fires). -/
def c10dflt : Anomaly where
  type := AnomalyType.UNUSUAL_LOW_PRICE_BUY
  marketId := ""
  marketQuestion := ""
  severity := AnomalySeverity.MEDIUM
  timestamp := 0
  details := {}
  currentPrice := 0
  impliedDirection := ImpliedDirection.YES

/-- The anomaly emitted by the detector on the concrete input. -/
def c10anom : Anomaly :=
  ((detectUnusualLowPriceBuy DEFAULT_PERCENTILE_CONFIG c10stats c10tr
    c10market).2).getD c10dflt

/-- The sorted multiset after the $1000 buy is inserted: 100 entries. -/
def c10lpb : List ℚ := List.replicate 99 (1:ℚ) ++ [1000]

/-- The percentile result of the self-query: the 100th entry sits above the
other 99, percentile 99/100, which reaches the critical threshold. -/
def c10res : PercentileResult where
  percentile := (99:ℚ) / 100
  isUnusual := true
  severity := PercSeverity.CRITICAL
  rank := 1
  totalTrades := 100
  medianSize := 1
  p90 := 1
  p95 := 1
  p99 := 1000

/-- The anomaly record the detector builds from `c10res`. -/
def c10anomLit : Anomaly where
  type := AnomalyType.UNUSUAL_LOW_PRICE_BUY
  marketId := c10tr.marketId
  marketQuestion := c10market.question
  severity := AnomalySeverity.CRITICAL
  timestamp := c10tr.timestamp
  details :=
    { tradeSize := some c10tr.sizeUsd
      percentile := some c10res.percentile
      rank := some c10res.rank
      totalTrades := some c10res.totalTrades
      medianSize := some c10res.medianSize }
  currentPrice := c10tr.price
  impliedDirection := ImpliedDirection.YES
  triggerTrade := some c10tr

set_option maxRecDepth 4000 in
unseal Rat.add Rat.mul Rat.inv Rat.sub in
/-- C10 witness: on the concrete 99-element tracker the $1000 buy is counted
in its own query, yielding `totalTrades = 100` and percentile `99/100`. -/
theorem C10_critical_needs_100_witness :
    ∃ p n, c10anom.details.percentile = some p ∧
      c10anom.details.totalTrades = some n ∧ 50 ≤ n ∧
      p ≤ ((n:ℚ) - 1) / (n:ℚ) ∧
      (c10anom.severity = AnomalySeverity.CRITICAL → 100 ≤ n) := by
  have hsorted99 : c10st.lowPriceBuys.Sorted (· ≤ ·) :=
    List.pairwise_replicate.mpr (Or.inr (le_refl (1:ℚ)))
  have hins : insertSorted c10st.lowPriceBuys c10tr.sizeUsd = c10lpb := by
    rw [insertSorted_eq_orderedInsert _ _ hsorted99]
    decide
  have hsorted100 : c10lpb.Sorted (· ≤ ·) := by
    have h := insertSorted_sorted c10st.lowPriceBuys c10tr.sizeUsd hsorted99
    rwa [hins] at h
  have hcnt : countSmaller c10lpb c10tr.sizeUsd = 99 := by
    rw [countSmaller_eq _ _ hsorted100]
    decide
  have hperc : MarketStats.getPercentile DEFAULT_PERCENTILE_CONFIG
      { trades := c10st.trades ++
          [({ sizeUsd := c10tr.sizeUsd, price := c10tr.price,
              timestamp := c10tr.timestamp, side := c10tr.side } :
            TradeRecord)]
        lowPriceBuys := c10lpb }
      c10tr.sizeUsd = c10res := by
    rw [MarketStats.getPercentile]
    rw [if_neg (by decide :
      ¬ c10lpb.length < DEFAULT_PERCENTILE_CONFIG.minSamples)]
    rw [hcnt]
    decide
  have hsa : MarketStats.shouldAlert DEFAULT_PERCENTILE_CONFIG
      { trades := c10st.trades ++
          [({ sizeUsd := c10tr.sizeUsd, price := c10tr.price,
              timestamp := c10tr.timestamp, side := c10tr.side } :
            TradeRecord)]
        lowPriceBuys := c10lpb }
      c10tr.sizeUsd c10tr.price c10tr.side = some c10res := by
    rw [MarketStats.shouldAlert]
    rw [if_neg (by decide : ¬ (c10tr.side ≠ Side.BUY ∨
      DEFAULT_PERCENTILE_CONFIG.lowPriceThreshold ≤ c10tr.price))]
    simp only [hperc]
    rfl
  have hchk : (c10stats.addTrade DEFAULT_PERCENTILE_CONFIG c10tr.marketId
      c10tr.sizeUsd c10tr.price c10tr.side c10tr.timestamp).checkTrade
      DEFAULT_PERCENTILE_CONFIG c10tr.marketId c10tr.sizeUsd c10tr.price
      c10tr.side = some c10res := by
    rw [MarketStatsManager.checkTrade, getMarket_addTrade, if_pos rfl]
    rw [show c10stats.getMarket c10tr.marketId = c10st from rfl]
    rw [addTrade_of_le DEFAULT_PERCENTILE_CONFIG c10st
      { sizeUsd := c10tr.sizeUsd, price := c10tr.price,
        timestamp := c10tr.timestamp, side := c10tr.side } (by decide)]
    rw [if_pos (show isLowPriceBuy DEFAULT_PERCENTILE_CONFIG
      { sizeUsd := c10tr.sizeUsd, price := c10tr.price,
        timestamp := c10tr.timestamp, side := c10tr.side } = true from
      by decide)]
    rw [hins]
    exact hsa
  have hA : (detectUnusualLowPriceBuy DEFAULT_PERCENTILE_CONFIG c10stats c10tr
      c10market).2 = some c10anomLit := by
    rw [detectUnusualLowPriceBuy]
    rw [if_neg (by decide : ¬ c10tr.side ≠ Side.BUY)]
    simp only [hchk]
    rfl
  have hpermc : List.Perm c10st.lowPriceBuys
      ((c10st.trades.filter (isLowPriceBuy DEFAULT_PERCENTILE_CONFIG)).map
        (fun t => t.sizeUsd)) := by
    have he : (c10st.trades.filter (isLowPriceBuy DEFAULT_PERCENTILE_CONFIG)).map
        (fun t => t.sizeUsd) = c10st.lowPriceBuys := by decide
    rw [he]
  have hfin : (detectUnusualLowPriceBuy DEFAULT_PERCENTILE_CONFIG c10stats
      c10tr c10market).2 = some c10anom := by
    simp only [c10anom, hA, Option.getD_some]
  exact C10_critical_needs_100 c10stats c10tr c10market hsorted99 hpermc
    c10anom hfin

end TradingBot
